import Mathlib

/-!
Verification development for the kb_swiper genome-annotation utility.

The Lean definitions below are a shallow embedding of the Python sources under
`src/lib/GenomeFileUtil/core/` (`GenomeUtils.py`, `GenomeInterface.py`,
`GenomeToGFF.py`, `GenomeToGenbank.py`).  Python dictionaries holding genome
and feature records are modelled as Lean structures whose `Option` fields
record key presence; Python lists are Lean lists; Python ints are `Int`/`Nat`
(arbitrary precision, as in Python).  External collaborators (the taxonomy
relation-engine client, the assembly/contigset object store, `hashlib.md5`,
and `sys.getsizeof(json.dumps(...))`) are modelled as explicit function
parameters, since their behaviour is out of scope and only their results flow
into the algorithms.
-/

set_option maxHeartbeats 1600000

/-- Location tuple `(contig_id, anchor, strand, length)` as used throughout the
Python sources (`loc[0]`, `loc[1]`, `loc[2]`, `loc[3]`). -/
structure Loc where
  contig : String
  anchor : Int
  strand : String
  length : Int
deriving DecidableEq, Repr, Inhabited

/-- Recursive value type used to model heterogeneous Python alias entries: a
bare string alias or a list (normally a `[namespace, value]` pair). -/
inductive AVal where
  | str (s : String)
  | list (l : List AVal)
deriving Inhabited

mutual

/-- Decidable equality for `AVal` (mutually with lists of `AVal`). -/
def AVal.decEq : (a b : AVal) → Decidable (a = b)
  | .str a, .str b =>
    match String.decEq a b with
    | isTrue h => isTrue (by rw [h])
    | isFalse h => isFalse (by intro hh; injection hh; contradiction)
  | .str _, .list _ => isFalse nofun
  | .list _, .str _ => isFalse nofun
  | .list as, .list bs =>
    match AVal.decEqList as bs with
    | isTrue h => isTrue (by rw [h])
    | isFalse h => isFalse (by intro hh; injection hh; contradiction)

/-- Decidable equality for lists of `AVal`. -/
def AVal.decEqList : (as bs : List AVal) → Decidable (as = bs)
  | [], [] => isTrue rfl
  | [], _ :: _ => isFalse nofun
  | _ :: _, [] => isFalse nofun
  | a :: as, b :: bs =>
    match AVal.decEq a b, AVal.decEqList as bs with
    | isTrue h1, isTrue h2 => isTrue (by rw [h1, h2])
    | isFalse h1, _ => isFalse (by intro hh; injection hh; contradiction)
    | isTrue _, isFalse h2 => isFalse (by intro hh; injection hh; contradiction)

end

instance : DecidableEq AVal := AVal.decEq

/-- True exactly on bare-string alias entries (`not isinstance(x, (list, tuple))`). -/
def AVal.isStr : AVal → Bool
  | .str _ => true
  | .list _ => false

/-- Ontology-evidence record.  The Python evidence dict is modelled with its
`id` and `ontology_ref` keys explicit (they are overwritten during interning;
`Option` records key presence) and the rest of the dict as an opaque payload. -/
structure Ev where
  evid : Option String
  ontology_ref : Option String
  payload : String
deriving DecidableEq, Repr, Inhabited

/-- Raw (pre-interning) ontology term dict: `{id, term_name, ontology_ref, evidence}`. -/
structure TermRaw where
  tid : String
  term_name : String
  ontology_ref : String
  evidence : List Ev
deriving DecidableEq, Repr, Inhabited

/-- Value stored under a term key in `feature['ontology_terms'][ontology]`:
either an already interned list of event indices or a raw term dict. -/
inductive TermVal where
  | interned (idxs : List Nat)
  | raw (t : TermRaw)
deriving DecidableEq, Repr, Inhabited

/-- One entry of a feature's `inference_data` list. -/
structure Inference where
  category : String
  itype : String
  evidence : String
deriving DecidableEq, Repr, Inhabited

/-- Feature record (one element of `features`/`cdss`/`mrnas`/`non_coding_features`).
`Option` fields model key presence; list-valued keys whose absence is
indistinguishable from emptiness in the code paths modelled here are plain
lists.  `deprecated` stands for the seven deprecated keys popped by the
migrator (`protein_families`, `atomic_regulons`, `orthologs`,
`coexpressed_fids`, `publications`, `regulon_data`, `subsystem_data`). -/
structure Feature where
  id : String
  type : Option String
  location : List Loc
  function : Option String
  functions : Option (List String)
  functional_descriptions : List String
  aliases : List AVal
  db_xrefs : List (String × String)
  ontology_terms : List (String × List (String × TermVal))
  dna_sequence : Option String
  dna_sequence_length : Option Int
  protein_translation : Option String
  protein_md5 : Option String
  parent_gene : Option String
  parent_mrna : Option String
  parent : Option String
  cdss : List String
  mrnas : List String
  cds : Option String
  children : List String
  flags : List String
  inference_data : List Inference
  note : Option String
  warnings : List String
  deprecated : List (String × String)
deriving DecidableEq, Inhabited

/-- Genome record.  `gc_content`'s outer `Option` is key presence, the inner
one distinguishes an explicit null (legacy contig sets) from a value.
`sciname` is the legacy `sciname` key read by `set_default_taxon_data`. -/
structure Genome where
  source : String
  scientific_name : Option String
  sciname : Option String
  domain : Option String
  taxonomy : Option String
  genetic_code : Option Nat
  genome_tiers : Option (List String)
  molecule_type : Option String
  taxon_assignments : Option (List (String × Nat))
  dna_size : Option Int
  md5 : Option String
  gc_content : Option (Option Int)
  num_contigs : Option Int
  genome_type : Option String
  assembly_ref : Option String
  contigset_ref : Option String
  contig_ids : Option (List String)
  features : List Feature
  cdss : List Feature
  mrnas : List Feature
  non_coding_features : List Feature
  feature_counts : List (String × Nat)
  ontologies_present : List (String × List (String × String))
  ontology_events : List Ev
  warnings : List String
deriving DecidableEq, Inhabited

/-- Empty feature, used to build concrete test records. -/
def emptyFeature : Feature :=
  ⟨"", none, [], none, none, [], [], [], [], none, none, none, none, none,
   none, none, [], [], none, [], [], [], none, [], []⟩

/-- Empty genome, used to build concrete test records. -/
def emptyGenome : Genome :=
  ⟨"", none, none, none, none, none, none, none, none, none, none, none,
   none, none, none, none, none, [], [], [], [], [], [], [], []⟩

/-- Python truthiness of an optional string (`feature.get(k)` in a boolean
context): present and non-empty. -/
def truthyO : Option String → Bool
  | some s => s ≠ ""
  | none => false

/-- Association-list lookup (Python `d.get(k)` / `k in d`). -/
def lookupA {α : Type} (k : String) : List (String × α) → Option α
  | [] => none
  | (k', v) :: rest => if k' = k then some v else lookupA k rest

/-- Association-list insert-or-assign (Python `d[k] = v`): updates the first
binding of `k` in place, otherwise appends, matching dict insertion order. -/
def setA {α : Type} (k : String) (v : α) : List (String × α) → List (String × α)
  | [] => [(k, v)]
  | (k', v') :: rest => if k' = k then (k, v) :: rest else (k', v') :: setA k v rest

/-- Increment for `defaultdict(int)` counters (`d[k] += 1`). -/
def bumpA (k : String) (d : List (String × Nat)) : List (String × Nat) :=
  match lookupA k d with
  | some n => setA k (n + 1) d
  | none => d ++ [(k, 1)]

/-! ## Coordinate algebra (`GenomeUtils.get_start` / `get_end` / `get_bio_end`) -/

/-- Translation of `GenomeUtils.get_start`. -/
def get_start (loc : Loc) : Int :=
  if loc.strand = "+" then loc.anchor
  else if loc.strand = "-" then loc.anchor - (loc.length - 1)
  else 0

/-- Translation of `GenomeUtils.get_end`. -/
def get_end (loc : Loc) : Int :=
  if loc.strand = "+" then loc.anchor + (loc.length - 1)
  else if loc.strand = "-" then loc.anchor
  else 0

/-- Translation of `GenomeUtils.get_bio_end`.  Note: the Python function has
no sentinel branch - every strand other than `"+"` takes the `else` arm. -/
def get_bio_end (loc : Loc) : Int :=
  if loc.strand = "+" then loc.anchor + loc.length
  else loc.anchor - loc.length

/-! ## Containment testing (`GenomeUtils.is_parent`) -/

/-- Translation of the `_contains` closure inside `is_parent`. -/
def containsLoc (l1 l2 : Loc) : Bool :=
  if l1.contig ≠ l2.contig then false
  else if l1.strand ≠ l2.strand then false
  else if l1.strand = "+" then
    l2.anchor ≥ l1.anchor && l2.anchor + l2.length ≤ l1.anchor + l1.length
  else
    l2.anchor ≤ l1.anchor && l2.anchor - l2.length ≥ l1.anchor - l1.length

/-- Fuel-based body of the `while not _contains(...)` search of `is_parent`
(structural recursion on the remaining distance, so that the kernel can
evaluate it). -/
def searchFromAux (ps : List Loc) (l2 : Loc) : Nat → Nat → Option Nat
  | _, 0 => none
  | j, fuel + 1 =>
    if h : j < ps.length then
      if containsLoc (ps.get ⟨j, h⟩) l2 then some j else searchFromAux ps l2 (j + 1) fuel
    else none

/-- The inner `while not _contains(...)` search of `is_parent`: first index
`j' ≥ j` whose parent segment contains `l2`, if any. -/
def searchFrom (ps : List Loc) (l2 : Loc) (j : Nat) : Option Nat :=
  searchFromAux ps l2 j (ps.length - j)

/-- Boundary checks of `is_parent` for a child segment `l2` at child index `i`
against the parent segment at index `j` (`clen` is the child segment count). -/
def boundaryOk (ps : List Loc) (clen i j : Nat) (l2 : Loc) : Bool :=
  let l1 := ps.getD j default
  if i = 0 then get_bio_end l2 = get_bio_end l1
  else if i = clen - 1 then l2.anchor = l1.anchor
  else l1 = l2

/-- Main loop of `is_parent`: `i` is the child-segment index, `j` the current
parent index.  A `continue` in the Python gene path skips the trailing
`j += 1`, so the gene branch passes `j'` (not `j' + 1`) on. -/
def isParentGo (gene : Bool) (ps : List Loc) (clen : Nat) :
    List Loc → Nat → Nat → Bool
  | [], _, _ => true
  | l2 :: rest, i, j =>
    if ps.length ≤ j then false
    else if gene || i = 0 then
      match searchFrom ps l2 j with
      | none => false
      | some j' =>
        if gene || clen = 1 then isParentGo gene ps clen rest (i + 1) j'
        else if boundaryOk ps clen i j' l2 then isParentGo gene ps clen rest (i + 1) (j' + 1)
        else false
    else if boundaryOk ps clen i j l2 then isParentGo gene ps clen rest (i + 1) (j + 1)
    else false

/-- Translation of `GenomeUtils.is_parent` (`feat1` candidate parent, `feat2`
candidate child). -/
def is_parent (feat1 feat2 : Feature) : Bool :=
  isParentGo (feat1.type = some "gene") feat1.location feat2.location.length
    feat2.location 0 0

/-- Containment walk exactly as claim C7 words it: every child segment must be
fully contained in a parent segment found by advancing through the parent's
location list, the first child segment must share the containing segment's
biological end, the last child segment must share its anchor, interior child
segments must equal it exactly; a gene parent checks containment only. -/
def isParentClaimWalk (gene : Bool) (ps : List Loc) (clen : Nat) :
    List Loc → Nat → Nat → Bool
  | [], _, _ => true
  | l2 :: rest, i, j =>
    match searchFrom ps l2 j with
    | none => false
    | some j' =>
      if gene then isParentClaimWalk gene ps clen rest (i + 1) j'
      else
        let l1 := ps.getD j' default
        let firstOk := i ≠ 0 || decide (get_bio_end l2 = get_bio_end l1)
        let lastOk := i ≠ clen - 1 || decide (l2.anchor = l1.anchor)
        let innerOk := (i = 0 : Bool) || (i = clen - 1 : Bool) || decide (l1 = l2)
        firstOk && lastOk && innerOk && isParentClaimWalk gene ps clen rest (i + 1) j'

/-- The containment relation stated by claim C7 (what `is_parent` is claimed
to decide). -/
def isParentClaim (feat1 feat2 : Feature) : Bool :=
  isParentClaimWalk (feat1.type = some "gene") feat1.location feat2.location.length
    feat2.location 0 0

/-! ## Source/tier table (`GenomeInterface.determine_tier`) -/

/-- Whether `pat` is a prefix of `l` (character lists). -/
def listPrefix : List Char → List Char → Bool
  | [], _ => true
  | _ :: _, [] => false
  | a :: as, b :: bs => a = b && listPrefix as bs

/-- Whether `pat` occurs inside `l` (character lists). -/
def listContainsSub (pat : List Char) : List Char → Bool
  | [] => listPrefix pat []
  | c :: rest => listPrefix pat (c :: rest) || listContainsSub pat rest

/-- Python `pat in s` substring test. -/
def strContains (s pat : String) : Bool := listContainsSub pat.toList s.toList

/-- Python `s.lower()` (ASCII range, as in the data handled here). -/
def lowerStr (s : String) : String := String.mk (s.toList.map Char.toLower)

/-- Translation of `GenomeInterface.determine_tier`.  Note the two quirks kept
from the source: the Phytozome branches return the string `"Phytosome"`, and
the `flagship` test is against the raw `source`, not the lowercased copy. -/
def determine_tier (source : String) : String × List String :=
  let low := lowerStr source
  if strContains low "refseq" then
    if strContains low "reference" then
      ("RefSeq", ["Reference", "Representative", "ExternalDB"])
    else if strContains low "representative" then
      ("RefSeq", ["Representative", "ExternalDB"])
    else if strContains low "user" then
      ("RefSeq", ["ExternalDB", "User"])
    else
      ("RefSeq", ["ExternalDB"])
  else if strContains low "phytozome" then
    if strContains source "flagship" then
      ("Phytosome", ["Reference", "Representative", "ExternalDB"])
    else
      ("Phytosome", ["Representative", "ExternalDB"])
  else if strContains low "ensembl" then
    if strContains low "user" then
      ("Ensembl", ["ExternalDB", "User"])
    else
      ("Ensembl", ["Representative", "ExternalDB"])
  else
    (source, ["User"])

/-- The tier table exactly as claim C6 states it: every keyword (including
`flagship`) matched case-insensitively, and the Phytozome rows yielding the
source string `"Phytozome"`. -/
def determineTierClaim (source : String) : String × List String :=
  let low := lowerStr source
  if strContains low "refseq" then
    if strContains low "reference" then
      ("RefSeq", ["Reference", "Representative", "ExternalDB"])
    else if strContains low "representative" then
      ("RefSeq", ["Representative", "ExternalDB"])
    else if strContains low "user" then
      ("RefSeq", ["ExternalDB", "User"])
    else
      ("RefSeq", ["ExternalDB"])
  else if strContains low "phytozome" then
    if strContains low "flagship" then
      ("Phytozome", ["Reference", "Representative", "ExternalDB"])
    else
      ("Phytozome", ["Representative", "ExternalDB"])
  else if strContains low "ensembl" then
    if strContains low "user" then
      ("Ensembl", ["ExternalDB", "User"])
    else
      ("Ensembl", ["Representative", "ExternalDB"])
  else
    (source, ["User"])

/-- One row of the amended tier table: `keys` are `(substring, matchLowercased)`
requirements, `outSource` is the replacement source (`none` echoes the input). -/
structure TierRule where
  keys : List (String × Bool)
  outSource : Option String
  tiers : List String
deriving Repr

/-- The amended tier table, first-match-wins: as the claim's table, except
that the Phytozome rows yield `"Phytosome"` and the `flagship` keyword is
matched case-sensitively against the raw source string. -/
def tierRules : List TierRule :=
  [⟨[("refseq", true), ("reference", true)], some "RefSeq",
    ["Reference", "Representative", "ExternalDB"]⟩,
   ⟨[("refseq", true), ("representative", true)], some "RefSeq",
    ["Representative", "ExternalDB"]⟩,
   ⟨[("refseq", true), ("user", true)], some "RefSeq", ["ExternalDB", "User"]⟩,
   ⟨[("refseq", true)], some "RefSeq", ["ExternalDB"]⟩,
   ⟨[("phytozome", true), ("flagship", false)], some "Phytosome",
    ["Reference", "Representative", "ExternalDB"]⟩,
   ⟨[("phytozome", true)], some "Phytosome", ["Representative", "ExternalDB"]⟩,
   ⟨[("ensembl", true), ("user", true)], some "Ensembl", ["ExternalDB", "User"]⟩,
   ⟨[("ensembl", true)], some "Ensembl", ["Representative", "ExternalDB"]⟩]

/-- Whether a rule's keywords all occur in the source (lowercased or raw per key). -/
def ruleMatches (source : String) (r : TierRule) : Bool :=
  r.keys.all fun k => strContains (if k.2 then lowerStr source else source) k.1

/-- First-match-wins evaluation of the amended tier table, defaulting to
`(source, [User])`. -/
def determineTierAmended (source : String) : String × List String :=
  match tierRules.find? (ruleMatches source) with
  | some r => (r.outSource.getD source, r.tiers)
  | none => (source, ["User"])

/-! ## Feature-id uniqueness (`GenomeUtils.check_feature_ids_uniqueness`) -/

/-- The four feature collections in the order `check_feature_ids_uniqueness`
walks them (`["features", "cdss", "mrnas", "non_coding_features"]`). -/
def allFeats (g : Genome) : List Feature :=
  g.features ++ g.cdss ++ g.mrnas ++ g.non_coding_features

/-- Loop body state of `check_feature_ids_uniqueness`: the `unique_feature_ids`
set (as a list) and the `duplicate_feature_id_counts` dict. -/
def checkGo : List String × List (String × Nat) → List Feature →
    List String × List (String × Nat)
  | st, [] => st
  | (seen, dup), f :: fs =>
    if f.id ∈ seen then
      match lookupA f.id dup with
      | some n => checkGo (seen, setA f.id (n + 1) dup) fs
      | none => checkGo (seen, dup ++ [(f.id, 2)]) fs
    else checkGo (f.id :: seen, dup) fs

/-- Translation of `GenomeUtils.check_feature_ids_uniqueness`: returns the
duplicate-count dict, raising (`.error`) only when no feature ids were seen. -/
def check_feature_ids_uniqueness (g : Genome) :
    Except String (List (String × Nat)) :=
  let (seen, dup) := checkGo ([], []) (allFeats g)
  if seen.isEmpty then .error "Error no feature ids found in this genome"
  else .ok dup

/-- Number of features with a given id in a list (used to state what the
duplicate counts mean). -/
def countId (i : String) (l : List Feature) : Nat :=
  l.countP fun f => f.id = i

/-! ## Schema migrator (`GenomeInterface._update_genome`)

External collaborators are passed in as functions: `md5hex` models
`hashlib.md5(...).hexdigest()`, `fetchAssembly`/`fetchContigset` model the
`dfu.get_objects` calls on `assembly_ref`/`contigset_ref`, and `fetchTaxon`
models the two relation-engine stored queries of `GenomeUtils.set_taxon_data`.
-/

/-- Result of the `ncbi_fetch_taxon` + `ncbi_taxon_get_lineage` queries:
genetic code, the lineage as `(scientific_name, rank)` docs, and the taxon's
scientific name. -/
structure TaxonData where
  gencode : Nat
  lineage : List (String × String)
  sciname : String

/-- Assembly object fields read by `_update_genome`. -/
structure AssemblyData where
  gc_content : Int
  dna_size : Int
  md5 : String
  num_contigs : Int
  atype : Option String

/-- Contig-set object fields read by `_update_genome` (`contigs/[*]/length`, `md5`). -/
structure ContigsetData where
  contig_lengths : List Int
  md5 : String

/-- Step 1a of `_update_genome`: derive `(source, genome_tiers)` via
`determine_tier` when `genome_tiers` is absent. -/
def stepTiers (g : Genome) : Genome :=
  match g.genome_tiers with
  | some _ => g
  | none =>
    let st := determine_tier g.source
    { g with source := st.1, genome_tiers := some st.2 }

/-- Step 1b of `_update_genome`: default `molecule_type` to `"Unknown"`. -/
def stepMolecule (g : Genome) : Genome :=
  match g.molecule_type with
  | some _ => g
  | none => { g with molecule_type := some "Unknown" }

/-- The NCBI taxon id used by `_update_genome`, when present and truthy
(`genome['taxon_assignments'].get('ncbi')` in a boolean context). -/
def ncbiId (g : Genome) : Option Nat :=
  match g.taxon_assignments with
  | none => none
  | some m =>
    match lookupA "ncbi" m with
    | some v => if v = 0 then none else some v
    | none => none

/-- Append one warning string (Python `genome_dict['warnings'].append`). -/
def addWarning (w : String) (g : Genome) : Genome :=
  { g with warnings := g.warnings ++ [w] }

/-- Remove newline characters (Python `.replace('\n', '')`). -/
def removeNl (s : String) : String := String.mk (s.toList.filter fun c => c ≠ '\n')

/-- Translation of `GenomeUtils.set_default_taxon_data` (the no-NCBI-id path):
`setdefault` of `taxonomy` (from the legacy `sciname` key), `genetic_code`
(11) and `domain` (`"Unknown"`). -/
def set_default_taxon_data (g : Genome) : Genome :=
  let g := match g.taxonomy with
    | some _ => g
    | none =>
      match g.sciname with
      | some s =>
        if s ≠ "" then { g with taxonomy := some ("Unconfirmed Organism: " ++ s) }
        else { g with taxonomy := some "Unconfirmed Organism" }
      | none => { g with taxonomy := some "Unconfirmed Organism" }
  let g := match g.genetic_code with
    | some _ => g
    | none => { g with genetic_code := some 11 }
  match g.domain with
  | some _ => g
  | none => { g with domain := some "Unknown" }

/-- The lineage string of `set_taxon_data`: non-root scientific names joined
with `"; "`, newlines removed. -/
def taxonomyOf (td : TaxonData) : String :=
  removeNl (String.intercalate "; " ((td.lineage.filter fun r => r.1 ≠ "root").map Prod.fst))

/-- The `domain` singleton list extracted from the lineage (`rank == 'superkingdom'`). -/
def domainsOf (td : TaxonData) : List String :=
  (td.lineage.filter fun r => r.2 = "superkingdom").map Prod.fst

/-- Translation of `GenomeUtils.set_taxon_data` for taxon id `tid`.  The
consistency `RuntimeError` of the Python cannot fire here because the caller
passes the very id read from `taxon_assignments` (ids are modelled as `Nat`,
so the string/int normalisation is the identity).  Note the Python quirk kept
by the model: the domain-mismatch test compares the genome's domain *string*
with the fetched singleton *list*, which never compare equal, so a warning is
appended whenever the genome already carries a truthy domain. -/
def set_taxon_data (fetchTaxon : Nat → TaxonData) (tid : Nat) (g : Genome) : Genome :=
  let g := { g with taxon_assignments := some [("ncbi", tid)] }
  let td := fetchTaxon tid
  let g :=
    if (match g.genetic_code with
        | some c => c ≠ 0 && c ≠ td.gencode
        | none => false) then
      addWarning ("The genetic code provided by NCBI does not match the one given by the user") g
    else g
  let g := { g with genetic_code := some td.gencode }
  let taxonomy := taxonomyOf td
  let dlist := domainsOf td
  let g :=
    if truthyO g.domain then
      addWarning ("The domain provided by NCBI does not match the one given by the user") g
    else g
  let g := match dlist with
    | d :: _ => { g with domain := some d }
    | [] => if truthyO g.domain then g else { g with domain := some "Unknown" }
  let g := { g with taxonomy := some taxonomy }
  let g :=
    if truthyO g.scientific_name && g.scientific_name ≠ some td.sciname then
      addWarning ("The scientific name provided by NCBI does not match the one given by the user") g
    else g
  { g with scientific_name := some td.sciname }

/-- Step 2 of `_update_genome`: taxonomy resolution. -/
def stepTaxon (fetchTaxon : Nat → TaxonData) (g : Genome) : Genome :=
  match ncbiId g with
  | some tid => set_taxon_data fetchTaxon tid g
  | none => set_default_taxon_data g

/-- Whether any of `dna_size, md5, gc_content, num_contigs` is missing. -/
def statsMissing (g : Genome) : Bool :=
  g.dna_size.isNone || g.md5.isNone || g.gc_content.isNone || g.num_contigs.isNone

/-- Step 3 of `_update_genome`: fetch assembly statistics from the referenced
assembly or contig set when any of the four fields is missing. -/
def stepAssembly (fetchAssembly : String → AssemblyData)
    (fetchContigset : String → ContigsetData) (g : Genome) : Genome :=
  if statsMissing g then
    match g.assembly_ref with
    | some r =>
      let a := fetchAssembly r
      let g := { g with gc_content := some (some a.gc_content),
                        dna_size := some a.dna_size,
                        md5 := some a.md5,
                        num_contigs := some a.num_contigs }
      if truthyO a.atype then { g with genome_type := a.atype } else g
    | none =>
      match g.contigset_ref with
      | some r =>
        let c := fetchContigset r
        { g with gc_content := some none,
                 dna_size := some c.contig_lengths.sum,
                 md5 := some c.md5,
                 num_contigs := some (c.contig_lengths.length : Int) }
      | none => g
  else g

/-- Ontology-interning state threaded through the feature loop:
`ontologies_present` and `ontology_events`. -/
structure OntSt where
  present : List (String × List (String × String))
  events : List Ev
deriving DecidableEq

/-- Nested insert-or-assign for the `ontologies_present` defaultdict
(`ontologies_present[ontology][term_id] = term_name`). -/
def setA2 (ont tid name : String)
    (p : List (String × List (String × String))) :
    List (String × List (String × String)) :=
  match lookupA ont p with
  | some inner => setA ont (setA tid name inner) p
  | none => p ++ [(ont, [(tid, name)])]

/-- Index of the first occurrence of an event (`ontology_events.index(ev)`). -/
def idxOf (e : Ev) : List Ev → Nat
  | [] => 0
  | x :: xs => if x = e then 0 else idxOf e xs + 1

/-- Evidence interning for one raw term: each evidence record has its `id` and
`ontology_ref` keys overwritten, is appended to `ontology_events` if not
already present, and is replaced by its (first-occurrence) index. -/
def internEvs (ont oref : String) : List Ev → List Ev → List Nat × List Ev
  | events, [] => ([], events)
  | events, e :: es =>
    let e' := { e with evid := some ont, ontology_ref := some oref }
    let events' := if e' ∈ events then events else events ++ [e']
    let r := internEvs ont oref events' es
    (idxOf e' events' :: r.1, r.2)

/-- Interning of one `(term_key, value)` entry of an ontology's term dict.  An
already-interned value is skipped (`isinstance(term, list)`); a raw term dict
updates `ontologies_present`, interns its evidence and is replaced by the
index list.  (Python stores the result under `term['id']`; when that differs
from the dict key, CPython raises a RuntimeError for mutating a dict during
iteration, so only inputs whose raw term keys equal their `id` field are
modelled - see `ontKeysOk`.) -/
def internTerm (ont : String) (st : OntSt) :
    String × TermVal → (String × TermVal) × OntSt
  | (k, .interned l) => ((k, .interned l), st)
  | (k, .raw t) =>
    let present' := setA2 ont t.tid t.term_name st.present
    let r := internEvs ont t.ontology_ref st.events t.evidence
    ((k, .interned r.1), ⟨present', r.2⟩)

/-- Interning of all terms of one ontology, in dict order. -/
def internTermList (ont : String) (st : OntSt) :
    List (String × TermVal) → List (String × TermVal) × OntSt
  | [] => ([], st)
  | e :: es =>
    let r1 := internTerm ont st e
    let r2 := internTermList ont r1.2 es
    (r1.1 :: r2.1, r2.2)

/-- Interning of a feature's whole `ontology_terms` mapping. -/
def internOnts (st : OntSt) :
    List (String × List (String × TermVal)) →
    List (String × List (String × TermVal)) × OntSt
  | [] => ([], st)
  | (ont, terms) :: rest =>
    let r1 := internTermList ont st terms
    let r2 := internOnts r1.2 rest
    ((ont, r1.1) :: r2.1, r2.2)

/-- Sum of location segment lengths (`sum(x[3] for x in feat['location'])`). -/
def sumLengths (locs : List Loc) : Int := (locs.map Loc.length).sum

/-- Per-feature normalisation of the `_update_genome` feature loop (everything
except the type tally and the rebucketing): singular `function` split into
`functions`; bare-string aliases wrapped into `['gene_synonym', x]` pairs;
ontology evidence interned; deprecated fields popped; `dna_sequence_length`
derived; `protein_md5` derived. -/
def normFeat (md5hex : String → String) (st : OntSt) (f : Feature) :
    Feature × OntSt :=
  let f := match f.function with
    | some s => { f with functions := some (s.splitOn "; "), function := none }
    | none => f
  let f := match f.aliases with
    | [] => f
    | a :: _ =>
      if a.isStr then
        { f with aliases := f.aliases.map fun x => .list [.str "gene_synonym", x] }
      else f
  let r := internOnts st f.ontology_terms
  let f := { f with ontology_terms := r.1, deprecated := [] }
  let f := match f.dna_sequence_length with
    | some _ => f
    | none => { f with dna_sequence_length := some (sumLengths f.location) }
  let f := match f.protein_translation, f.protein_md5 with
    | some tr, none => { f with protein_md5 := some (md5hex tr) }
    | _, _ => f
  (f, r.2)

/-- Counter state plus per-feature normalisation: the loop also tallies
`type_counts[feat['type']]` for features that carry a `type` key. -/
def normCount (md5hex : String → String) (st : OntSt)
    (cnts : List (String × Nat)) (f : Feature) :
    Feature × OntSt × List (String × Nat) :=
  let c := match f.type with
    | some t => bumpA t cnts
    | none => cnts
  let r := normFeat md5hex st f
  (r.1, r.2, c)

/-- The feature loop over the `mrnas` and `cdss` collections (no rebucketing,
entries are normalised in place). -/
def normList (md5hex : String → String) :
    OntSt → List (String × Nat) → List Feature →
    List Feature × OntSt × List (String × Nat)
  | st, c, [] => ([], st, c)
  | st, c, f :: fs =>
    let r := normCount md5hex st c f
    let rest := normList md5hex r.2.1 r.2.2 fs
    (r.1 :: rest.1, rest.2)

/-- Output of the `features`-list pass: retained protein-coding genes, and the
features appended to `non_coding_features` / `cdss` / `mrnas`, plus the final
interning state and counters. -/
structure FPass where
  retained : List Feature
  ncNew : List Feature
  cdsNew : List Feature
  mrnaNew : List Feature
  st : OntSt
  counts : List (String × Nat)
deriving DecidableEq

/-- The feature loop over the historical `features` list: normalise each
entry, then rebucket it by `feat.get('type', 'gene')`.  A gene with no `cdss`
children moves to `non_coding_features` (counted as a non-coding gene), a gene
with children is retained, CDS/mRNA entries move to `cdss`/`mrnas` (defaulting
`parent_gene` to `""`), and any other type is dropped. -/
def featPass (md5hex : String → String) :
    OntSt → List (String × Nat) → List Feature → FPass
  | st, c, [] => ⟨[], [], [], [], st, c⟩
  | st, c, f :: fs =>
    let r := normCount md5hex st c f
    let f' := r.1
    let t := f'.type.getD "gene"
    if t = "gene" then
      if f'.cdss.isEmpty then
        let rest := featPass md5hex r.2.1 (bumpA "non_coding_genes" r.2.2) fs
        { rest with ncNew := f' :: rest.ncNew }
      else
        let rest := featPass md5hex r.2.1 r.2.2 fs
        { rest with retained := f' :: rest.retained }
    else if t = "CDS" then
      let f'' := if f'.parent_gene = none then { f' with parent_gene := some "" } else f'
      let rest := featPass md5hex r.2.1 r.2.2 fs
      { rest with cdsNew := f'' :: rest.cdsNew }
    else if t = "mRNA" then
      let f'' := if f'.parent_gene = none then { f' with parent_gene := some "" } else f'
      let rest := featPass md5hex r.2.1 r.2.2 fs
      { rest with mrnaNew := f'' :: rest.mrnaNew }
    else
      featPass md5hex r.2.1 r.2.2 fs

/-- Steps 4-6 of `_update_genome`: the feature-level loop over
`('mrnas', 'cdss', 'features')` followed by the rebuilt `feature_counts`. -/
def featurePhase (md5hex : String → String) (g : Genome) : Genome :=
  let st0 : OntSt := ⟨g.ontologies_present, g.ontology_events⟩
  let rm := normList md5hex st0 [] g.mrnas
  let rc := normList md5hex rm.2.1 rm.2.2 g.cdss
  let fp := featPass md5hex rc.2.1 rc.2.2 g.features
  let mrnasF := rm.1 ++ fp.mrnaNew
  let cdssF := rc.1 ++ fp.cdsNew
  let ncF := g.non_coding_features ++ fp.ncNew
  let counts :=
    setA "non_coding_features" ncF.length
      (setA "protein_encoding_gene" fp.retained.length
        (setA "CDS" cdssF.length
          (setA "mRNA" mrnasF.length fp.counts)))
  { g with features := fp.retained,
           cdss := cdssF,
           mrnas := mrnasF,
           non_coding_features := ncF,
           ontologies_present := fp.st.present,
           ontology_events := fp.st.events,
           feature_counts := counts }

/-- Translation of `GenomeInterface._update_genome` (the schema migrator). -/
def update_genome (md5hex : String → String)
    (fetchAssembly : String → AssemblyData)
    (fetchContigset : String → ContigsetData)
    (fetchTaxon : Nat → TaxonData) (g : Genome) : Genome :=
  featurePhase md5hex
    (stepAssembly fetchAssembly fetchContigset
      (stepTaxon fetchTaxon (stepMolecule (stepTiers g))))

/-- Whether one term entry is stored under its own `id` field (raw terms only). -/
def termKeyOk : String × TermVal → Bool
  | (k, .raw t) => k = t.tid
  | (_, .interned _) => true

/-- Hypothesis for theorems about the migrator: every raw ontology term in the
collections the feature loop visits is stored under its own `id` (otherwise
the Python mutates a dict it is iterating and CPython raises). -/
def ontKeysOk (g : Genome) : Bool :=
  (g.mrnas ++ g.cdss ++ g.features).all fun f =>
    f.ontology_terms.all fun p => p.2.all termKeyOk

/-! ## Size governance (`GenomeInterface.handle_large_genomes`)

The Python measures sizes with `sys.getsizeof(json.dumps(obj))` and
`sys.getsizeof(feature[key])`.  Those byte counts depend on the CPython JSON
encoder, so they are modelled as abstract size functions `size` (whole
genome), `lsize` (one feature collection) and `keySize` (one feature field);
the governance theorem only needs that a collection's size never exceeds the
containing genome's size. -/

/-- `MAX_GENOME_SIZE = 2**30` from `GenomeInterface.py`. -/
def MAX_GENOME_SIZE : Nat := 2 ^ 30

/-- Size-exceeded error payload: the total size and the per-collection,
per-field size breakdown accumulated in `master_key_sizes`. -/
structure SizeErr where
  total : Nat
  breakdown : List (String × List (String × Nat))
deriving DecidableEq

/-- Strip `dna_sequence` from every feature of a collection
(`del feature["dna_sequence"]`). -/
def stripDna (l : List Feature) : List Feature :=
  l.map fun f => { f with dna_sequence := none }

/-- Per-field size tally over a collection (`feature_type_dict_keys`),
excluding the deleted `dna_sequence` key.  `keySize f k` models
`sys.getsizeof(feature[k])` for the keys present on `f`. -/
def collKeySizes (keySize : Feature → List (String × Nat)) (l : List Feature) :
    List (String × Nat) :=
  l.foldl (fun acc f =>
    (keySize f).foldl (fun acc2 kv =>
      if kv.1 = "dna_sequence" then acc2
      else match lookupA kv.1 acc2 with
        | some n => setA kv.1 (n + kv.2) acc2
        | none => acc2 ++ [kv]) acc) []

/-- One iteration of the `for x in feature_lists` loop of
`handle_large_genomes`: recheck the whole-genome size, and when it exceeds the
threshold strip `dna_sequence` from this collection and record its per-field
breakdown.  (`want_full_breakdown` is the constant `False` in the source, so
the breakdown is only built when stripping.) -/
def sizeStep (size : Genome → Nat) (keySize : Feature → List (String × Nat))
    (get : Genome → List Feature) (set : Genome → List Feature → Genome)
    (name : String) (acc : Genome × List (String × List (String × Nat))) :
    Genome × List (String × List (String × Nat)) :=
  let g := acc.1
  if size g > MAX_GENOME_SIZE then
    (set g (stripDna (get g)), acc.2 ++ [(name, collKeySizes keySize (get g))])
  else acc

/-- Translation of `GenomeInterface.handle_large_genomes`, over abstract size
functions.  Collections are visited in the source order
`('mrnas', 'features', 'non_coding_features', 'cdss')`; after the loop the
total size is rechecked and a `SizeErr` is raised if still over threshold. -/
def handle_large_genomes (size : Genome → Nat)
    (keySize : Feature → List (String × Nat)) (g : Genome) :
    Except SizeErr Genome :=
  let a1 := sizeStep size keySize Genome.mrnas
    (fun g l => { g with mrnas := l }) "mrnas" (g, [])
  let a2 := sizeStep size keySize Genome.features
    (fun g l => { g with features := l }) "features" a1
  let a3 := sizeStep size keySize Genome.non_coding_features
    (fun g l => { g with non_coding_features := l }) "non_coding_features" a2
  let a4 := sizeStep size keySize Genome.cdss
    (fun g l => { g with cdss := l }) "cdss" a3
  if size a4.1 > MAX_GENOME_SIZE then .error ⟨size a4.1, a4.2⟩ else .ok a4.1

/-! ## GFF/GTF emitter (`GenomeToGFF`) -/

/-- One 9-column GFF/GTF record as assembled by `GenomeToGFF.make_feature`
(field names follow the `gff_header` list; `gtype`/`gstart`/`gend` stand for
the `type`/`start`/`end` columns). -/
structure GffLine where
  seqname : String
  gsource : String
  gtype : String
  gstart : String
  gend : String
  score : String
  strand : String
  frame : String
  attrib : String
deriving DecidableEq, Repr, Inhabited

/-- One line of the produced file: a `##sequence-region` header or a feature row. -/
inductive OutLine where
  | header (contig : String)
  | row (line : GffLine)
deriving DecidableEq, Repr, Inhabited

/-- Uppercase hexadecimal digit. -/
def hexDigit (n : Nat) : Char :=
  if n < 10 then Char.ofNat (48 + n) else Char.ofNat (55 + n)

/-- Percent-encoding of one character as `urllib.parse.quote(val, " /:")`
does: alphanumerics, `_.-~` and the safe set `" /:"` pass through, everything
else becomes `%XX` (code points are encoded bytewise in Python; the model
covers the ASCII range used by the data). -/
def pctChar (c : Char) : String :=
  if c.isAlphanum || c = '_' || c = '.' || c = '-' || c = '~'
      || c = ' ' || c = '/' || c = ':' then
    String.singleton c
  else
    String.mk ['%', hexDigit (c.toNat / 16 % 16), hexDigit (c.toNat % 16)]

/-- `urllib.parse.quote(val, " /:")`. -/
def pctQuote (s : String) : String := String.join (s.toList.map pctChar)

/-- Double-quoted value for GTF attributes. -/
def quoted (s : String) : String := "\"" ++ s ++ "\""

/-- Translation of `GenomeToGFF.gen_gtf_attr`.  The Python stores the computed
parent alias back on the feature dict (`feature['parent_gene'] = feature['parent']`);
the model computes the same effective value locally, since the claims treat
the alias as transient. -/
def gen_gtf_attr (f : Feature) : String :=
  if f.type = some "gene" then
    "gene_id " ++ quoted f.id ++ "; transcript_id " ++ quoted ""
  else
    let pg := match f.parent with
      | some p => some p
      | none => f.parent_gene
    "gene_id " ++ quoted (pg.getD f.id) ++ "; transcript_id "
      ++ quoted (f.parent_mrna.getD f.id)

/-- One `key=value` attribute (`_one_attr` in `gen_gff_attr`). -/
def oneAttr (k v : String) : String := k ++ "=" ++ pctQuote v

/-- GFF3 attributes contributed by the alias list: only list-shaped entries
are rendered (`isinstance(pair, list)`), using their first two elements when
they are strings (other shapes make the Python renderer fail on non-string
arguments and do not occur in migrated data). -/
def aliasAttrs : List AVal → List String
  | [] => []
  | .str _ :: rest => aliasAttrs rest
  | .list (.str a :: .str b :: _) :: rest => oneAttr a b :: aliasAttrs rest
  | .list _ :: rest => aliasAttrs rest

/-- Translation of `GenomeToGFF.gen_gff_attr`.  The effective `Parent` value
mirrors the Python mutation loop over `('parent_gene', 'parent_mrna')` (the
last present key wins, falling back to a pre-existing `parent` key); as with
`gen_gtf_attr` the alias is computed locally instead of being stored back. -/
def gen_gff_attr (f : Feature) : String :=
  let parentVal : Option String :=
    match f.parent_mrna with
    | some p => some p
    | none =>
      match f.parent_gene with
      | some p => some p
      | none => f.parent
  let attrs := (if f.id ≠ "" then [oneAttr "ID" f.id] else [])
    ++ (if truthyO parentVal then [oneAttr "Parent" (parentVal.getD "")] else [])
    ++ (if truthyO f.note then [oneAttr "note" (f.note.getD "")] else [])
  let attrs := attrs ++ f.db_xrefs.map fun x => oneAttr "db_xref" (x.1 ++ ":" ++ x.2)
  let attrs := attrs ++ aliasAttrs f.aliases
  let attrs := attrs ++
    (if f.functional_descriptions ≠ [] then
      [oneAttr "function" (String.intercalate ";" f.functional_descriptions)]
    else [])
  let attrs := attrs ++
    (match f.functions with
     | some (x :: xs) => [oneAttr "product" (String.intercalate ";" (x :: xs))]
     | _ =>
       if truthyO f.function then [oneAttr "product" (f.function.getD "")] else [])
  let attrs := attrs ++ f.ontology_terms.flatMap fun p =>
    p.2.map fun t => oneAttr (lowerStr p.1) t.1
  let attrs := attrs ++ f.inference_data.map fun x =>
    oneAttr "inference"
      (String.intercalate ":"
        ([x.category, x.itype, x.evidence].filter fun s => s ≠ ""))
  let attrs := attrs ++
    (if f.flags.contains "trans_splicing" then [oneAttr "exception" "trans-splicing"] else [])
  String.intercalate "; " attrs

/-- Translation of `GenomeToGFF.get_common_location` (merge of a compound
location into an overall envelope). -/
def get_common_location (locs : List Loc) : Loc :=
  let contig := (locs.headD default).contig
  let strand := (locs.headD default).strand
  let minPos := match locs.map get_start with
    | [] => 0
    | x :: xs => xs.foldl min x
  let maxPos := match locs.map get_end with
    | [] => 0
    | x :: xs => xs.foldl max x
  let commonLength := maxPos - minPos + 1
  let commonStart := if strand = "+" then minPos else maxPos
  ⟨contig, commonStart, strand, commonLength⟩

/-- Translation of `GenomeToGFF.make_feature` (one output row). -/
def make_feature (loc : Loc) (f : Feature) (isGtf : Bool) : GffLine :=
  { seqname := loc.contig,
    gsource := "KBase",
    gtype := f.type.getD "exon",
    gstart := toString (get_start loc),
    gend := toString (get_end loc),
    score := ".",
    strand := loc.strand,
    frame := "0",
    attrib := if isGtf then gen_gtf_attr f else gen_gff_attr f }

/-- The feature kinds that get a merged envelope line plus per-segment exon
lines (`{'RNA', 'mRNA', 'tRNA', 'rRNA', 'misc_RNA', 'transcript'}` in
`make_feature_group`). -/
def spliceKinds : List String := ["RNA", "mRNA", "tRNA", "rRNA", "misc_RNA", "transcript"]

/-- The synthetic exon feature built for segment `i` (0-based) of a spliceable
feature. -/
def exonFeature (f : Feature) (i : Nat) : Feature :=
  { emptyFeature with
      id := f.id ++ "_exon_" ++ toString (i + 1),
      parent_gene := some (f.parent_gene.getD ""),
      parent_mrna := some f.id }

/-- The feature's own output rows (the `lines` built before child recursion in
`make_feature_group`). -/
def ownLines (f : Feature) (isGtf : Bool) : List GffLine :=
  if spliceKinds.contains (f.type.getD "") then
    make_feature (get_common_location f.location) f isGtf ::
      (List.range f.location.length).map fun i =>
        make_feature (f.location.getD i default) (exonFeature f i) isGtf
  else
    f.location.map fun loc => make_feature loc f isGtf

/-- Truthiness of the `cds` key (`feature.get('cds', False)`). -/
def cdsTruthy (f : Feature) : Bool := truthyO f.cds

/-- Translation of `GenomeToGFF.make_feature_group`: the feature's own rows
followed by the recursively emitted children (declared `mrnas`, else declared
`cdss`, else the mRNA's single `cds`), looked up in `child_dict`.  Recursion
depth is bounded by explicit `fuel` because the Python recursion is unbounded
on (ill-formed) cyclic child references; a missing child id, which raises
`KeyError` in Python, contributes no rows here. -/
def make_feature_group (isGtf : Bool) (childDict : List (String × Feature)) :
    Nat → Feature → List GffLine
  | 0, _ => []
  | fuel + 1, f =>
    let own := ownLines f isGtf
    let kids :=
      if f.mrnas ≠ [] then
        f.mrnas.flatMap fun mid =>
          match lookupA mid childDict with
          | some m => make_feature_group isGtf childDict fuel m
          | none => []
      else if f.cdss ≠ [] then
        f.cdss.flatMap fun cid =>
          match lookupA cid childDict with
          | some c => make_feature_group isGtf childDict fuel c
          | none => []
      else if cdsTruthy f then
        match lookupA (f.cds.getD "") childDict with
        | some c => make_feature_group isGtf childDict fuel c
        | none => []
      else []
    own ++ kids

/-- Contig of a feature's first location segment (`feature['location'][0][0]`;
features always carry at least one location in valid data - an empty list
raises in Python and yields the dummy `""` contig here). -/
def firstContig (f : Feature) : String := (f.location.headD default).contig

/-- The per-feature type mutations `build_gff_file` makes while bucketing:
top-level gene arrays default a missing `type` to `"gene"`, and every
mrnas/cdss entry gets its type forced. -/
def defaultTypeGene (f : Feature) : Feature := { f with type := some (f.type.getD "gene") }

/-- Force a feature's type (`mrna['type'] = 'mRNA'`, `cds['type'] = 'CDS'`). -/
def setTypeTo (t : String) (f : Feature) : Feature := { f with type := some t }

/-- The genome as mutated by `build_gff_file`'s bucketing loops. -/
def mutateForGff (g : Genome) : Genome :=
  { g with features := g.features.map defaultTypeGene,
           non_coding_features := g.non_coding_features.map defaultTypeGene,
           mrnas := g.mrnas.map (setTypeTo "mRNA"),
           cdss := g.cdss.map (setTypeTo "CDS") }

/-- `child_dict` as built by `build_gff_file` (on the already type-mutated
genome): mrnas with a truthy `parent_gene`, and cdss with a truthy
`parent_gene` or `parent_mrna`. -/
def childDictOf (g : Genome) : List (String × Feature) :=
  (g.mrnas.filter fun m => truthyO m.parent_gene).map (fun m => (m.id, m))
    ++ (g.cdss.filter fun c => truthyO c.parent_gene || truthyO c.parent_mrna).map
        (fun c => (c.id, c))

/-- Top-level features bucketed under contig `c`, in `build_gff_file`'s append
order: all of `features + non_coding_features`, then parentless mrnas, then
parentless cdss. -/
def bucketOf (g : Genome) (c : String) : List Feature :=
  ((g.features ++ g.non_coding_features).filter fun f => firstContig f = c)
    ++ (g.mrnas.filter fun m => !truthyO m.parent_gene && firstContig m = c)
    ++ (g.cdss.filter fun x =>
          !(truthyO x.parent_gene || truthyO x.parent_mrna) && firstContig x = c)

/-- Sort key of `build_gff_file.feature_sort`: genomic start of the merged
location, then kind priority (`children`-bearing features have priority 0). -/
def featureSortKey (f : Feature) : Int × Nat :=
  let priority :=
    if f.children ≠ [] then 0
    else match f.type.getD "" with
      | "gene" => 0
      | "mRNA" => 1
      | "CDS" => 2
      | _ => 3
  (get_start (get_common_location f.location), priority)

/-- Lexicographic order on sort keys. -/
def keyLE (a b : Int × Nat) : Bool :=
  a.1 < b.1 || (a.1 = b.1 && a.2 ≤ b.2)

/-- Stable insertion (new element goes after every existing element whose key
is less than or equal), modelling Python's stable `list.sort`. -/
def insertByKey (f : Feature) : List Feature → List Feature
  | [] => [f]
  | x :: xs =>
    if keyLE (featureSortKey x) (featureSortKey f) then x :: insertByKey f xs
    else f :: x :: xs

/-- Stable sort by `featureSortKey`. -/
def sortFeatures (l : List Feature) : List Feature :=
  l.foldl (fun acc f => insertByKey f acc) []

/-- Contig iteration order: `contig_ids` when present, otherwise the bucket
keys in insertion order (first occurrence of each first-contig). -/
def contigOrder (g : Genome) : List String :=
  match g.contig_ids with
  | some l => l
  | none =>
    (((g.features ++ g.non_coding_features).map firstContig)
      ++ ((g.mrnas.filter fun m => !truthyO m.parent_gene).map firstContig)
      ++ ((g.cdss.filter fun x =>
            !(truthyO x.parent_gene || truthyO x.parent_mrna)).map firstContig)).dedup

/-- Output rows of `build_gff_file` for an already mutated genome. -/
def emitGff (fuel : Nat) (isGtf : Bool) (g : Genome) : List OutLine :=
  let cd := childDictOf g
  (contigOrder g).flatMap fun c =>
    OutLine.header c ::
      ((sortFeatures (bucketOf g c)).flatMap fun f =>
        (make_feature_group isGtf cd fuel f).map OutLine.row)

/-- Translation of `GenomeToGFF.build_gff_file` (non-metagenome path): the
produced lines together with the genome as left mutated by the bucketing
loops. -/
def build_gff_file (fuel : Nat) (isGtf : Bool) (g : Genome) :
    List OutLine × Genome :=
  (emitGff fuel isGtf (mutateForGff g), mutateForGff g)

/-- The contig headers of an output, in order. -/
def outHeaders (out : List OutLine) : List String :=
  out.filterMap fun
    | .header c => some c
    | .row _ => none

/-! ## GenBank emitter (`GenomeToGenbank.GenomeFile._format_feature`) -/

/-- A biopython `FeatureLocation` as built by `_trans_loc`: 0-based start,
end, strand (`±1`), and an explicit contig reference only for trans-spliced
segments. -/
structure GBLoc where
  gstart : Int
  gend : Int
  strand : Int
  ref : Option String
deriving DecidableEq, Repr, Inhabited

/-- Qualifier values: a string, a list of strings, or the bare `None` used
for flag qualifiers. -/
inductive QVal where
  | str (s : String)
  | list (l : List String)
  | null
deriving DecidableEq, Repr, Inhabited

/-- A biopython `SeqFeature` as assembled by `_format_feature`. -/
structure GBFeature where
  location : List GBLoc
  ftype : String
  qualifiers : List (String × QVal)
deriving DecidableEq, Repr, Inhabited

/-- Translation of the `_trans_loc` closure: the contig reference is dropped
for segments on the current contig, and the strand decides the half-open
0-based range. -/
def transLoc (currentContig : String) (loc : Loc) : GBLoc :=
  let ref := if loc.contig = currentContig then none else some loc.contig
  if loc.strand = "-" then ⟨loc.anchor - loc.length, loc.anchor, -1, ref⟩
  else ⟨loc.anchor - 1, loc.anchor + loc.length - 1, 1, ref⟩

/-- Append a value to a list-valued qualifier, defaulting it to `[]` first. -/
def qualAppend (k v : String) (q : List (String × QVal)) : List (String × QVal) :=
  match lookupA k q with
  | some (.list l) => setA k (.list (l ++ [v])) q
  | some other => setA k other q
  | none => q ++ [(k, .list [v])]

/-- Qualifier contributions of one alias entry: two-element list entries
append to the namespace qualifier, everything else is legacy data appended to
`db_xref` (string aliases of length two index into the string in Python; such
entries do not occur in migrated data and are treated as legacy `db_xref`
strings here). -/
def aliasQual (q : List (String × QVal)) : AVal → List (String × QVal)
  | .list [.str a, .str b] => qualAppend a b q
  | .str s => qualAppend "db_xref" s q
  | _ => q

/-- Translation of `GenomeFile._format_feature`.  The function returns the
assembled `SeqFeature` together with the feature as left behind by the
Python: the `while in_feature['location']: ... .pop(0)` loop consumes the
whole location list. -/
def format_feature (currentContig : String) (f : Feature) : GBFeature × Feature :=
  let location := f.location.map (transLoc currentContig)
  let q : List (String × QVal) := []
  let q :=
    if f.type = some "gene" then q ++ [("locus_tag", .str f.id)]
    else if f.type = some "CDS" then
      match f.parent_gene with
      | some pg => q ++ [("locus_tag", .str pg)]
      | none => q
    else if f.type = some "mRNA" then
      match f.parent_gene with
      | some pg => q ++ [("locus_tag", .str pg)]
      | none => q
    else q
  let q :=
    if f.functional_descriptions ≠ [] then
      q ++ [("function", .str (String.intercalate "; " f.functional_descriptions))]
    else q
  let q :=
    match f.functions with
    | some (x :: xs) => setA "product" (.str (String.intercalate "; " (x :: xs))) q
    | _ => q
  let q :=
    match f.function with
    | some s => setA "product" (.str s) q
    | none => q
  let q := if truthyO f.note then setA "note" (.str (f.note.getD "")) q else q
  let q :=
    if truthyO f.protein_translation then
      setA "translation" (.str (f.protein_translation.getD "")) q
    else q
  let q :=
    if f.db_xrefs ≠ [] then
      setA "db_xref" (.list (f.db_xrefs.map fun x => x.1 ++ ":" ++ x.2)) q
    else q
  let q :=
    if f.ontology_terms ≠ [] then
      let q := match lookupA "db_xref" q with
        | some _ => q
        | none => q ++ [("db_xref", .list [])]
      f.ontology_terms.foldl (fun acc p =>
        p.2.foldl (fun acc2 t =>
          match lookupA "db_xref" acc2 with
          | some (.list l) => setA "db_xref" (.list (l ++ [t.1])) acc2
          | _ => acc2) acc) q
    else q
  let q := f.aliases.foldl aliasQual q
  let q := f.flags.foldl (fun acc fl => setA fl .null acc) q
  let q :=
    if f.inference_data ≠ [] then
      setA "inference"
        (.list (f.inference_data.map fun x =>
          String.intercalate ":"
            ([x.category, x.itype, x.evidence].filter fun s => s ≠ ""))) q
    else q
  let q :=
    if f.warnings ≠ [] then
      let old := match lookupA "note" q with
        | some (.str s) => s
        | _ => ""
      setA "note" (.str (old ++ "Warnings: " ++ String.intercalate "," f.warnings)) q
    else q
  (⟨location, f.type.getD "", q⟩, { f with location := [] })

/-! ## Declarative (amended) formulations used by the theorems -/

/-- Gene-parent walk: each child segment searches forward (from the current
parent index, which may be reused) for a containing parent segment; no
boundary checks. -/
def geneWalk (ps : List Loc) : List Loc → Nat → Bool
  | [], _ => true
  | l :: rest, j =>
    match searchFrom ps l j with
    | none => false
    | some j' => geneWalk ps rest j'

/-- Tail walk of the amended `is_parent` description for non-gene parents:
child segments after the first are compared against consecutive parent
segments; interior segments must equal them exactly, the final segment only
needs a matching anchor (no containment, contig or strand check). -/
def tailWalk (ps : List Loc) : List Loc → Nat → Bool
  | [], _ => true
  | [l], j => decide (j < ps.length) && decide (l.anchor = (ps.getD j default).anchor)
  | l :: rest, j =>
    decide (j < ps.length) && decide (ps.getD j default = l) && tailWalk ps rest (j + 1)

/-- Amended description of `is_parent`: a gene parent needs only the greedy
containment walk; a non-gene parent searches a containing segment for the
*first* child segment only (which must also share its biological end, unless
the child has a single segment, in which case containment alone suffices);
the remaining child segments follow `tailWalk`. -/
def isParentAmended (feat1 feat2 : Feature) : Bool :=
  let ps := feat1.location
  if feat1.type = some "gene" then geneWalk ps feat2.location 0
  else
    match feat2.location with
    | [] => true
    | [l] => (searchFrom ps l 0).isSome
    | l :: rest =>
      match searchFrom ps l 0 with
      | none => false
      | some j0 =>
        decide (get_bio_end l = get_bio_end (ps.getD j0 default)) && tailWalk ps rest (j0 + 1)

/-- Erase the two volatile genome fields (re-derived counts, warnings) for the
amended idempotence statement. -/
def eraseVolatile (g : Genome) : Genome :=
  { g with feature_counts := [], warnings := [] }

/-- A feature is in post-migration normal form: no singular `function`, aliases
already pair-shaped (or absent), all ontology terms interned, deprecated keys
gone, `dna_sequence_length` present, and `protein_md5` present whenever a
translation is. -/
def NormalFeat (f : Feature) : Prop :=
  f.function = none ∧
  (f.aliases = [] ∨ ∃ a tl, f.aliases = a :: tl ∧ a.isStr = false) ∧
  (∀ p ∈ f.ontology_terms, ∀ e ∈ p.2, ∃ l, e.2 = TermVal.interned l) ∧
  f.deprecated = [] ∧
  f.dna_sequence_length ≠ none ∧
  (f.protein_translation = none ∨ f.protein_md5 ≠ none)

/-- A retained protein-coding gene: normal form, gene-typed (or typeless), with
CDS children. -/
def GoodGene (f : Feature) : Prop :=
  NormalFeat f ∧ f.type.getD "gene" = "gene" ∧ f.cdss ≠ []

/-- Step-1a postcondition: `genome_tiers` present. -/
def TiersDone (h : Genome) : Prop := h.genome_tiers ≠ none

/-- Step-1b postcondition: `molecule_type` present. -/
def MolDone (h : Genome) : Prop := h.molecule_type ≠ none

/-- Fields pinned by a completed `set_taxon_data` run for taxon `tid`. -/
def TaxFetched (fetchTaxon : Nat → TaxonData) (tid : Nat) (h : Genome) : Prop :=
  h.taxon_assignments = some [("ncbi", tid)] ∧
  h.genetic_code = some (fetchTaxon tid).gencode ∧
  h.taxonomy = some (taxonomyOf (fetchTaxon tid)) ∧
  h.scientific_name = some (fetchTaxon tid).sciname ∧
  (match domainsOf (fetchTaxon tid) with
   | d :: _ => h.domain = some d
   | [] => truthyO h.domain = true)

/-- Step-2 postcondition: either the default path already ran (fields all
present, no NCBI id) or the fetch path pinned the fields for some taxon id. -/
def TaxDone (fetchTaxon : Nat → TaxonData) (h : Genome) : Prop :=
  (ncbiId h = none ∧ h.taxonomy ≠ none ∧ h.genetic_code ≠ none ∧ h.domain ≠ none) ∨
  (∃ tid, ncbiId h = some tid ∧ TaxFetched fetchTaxon tid h)

/-- Step-3 postcondition: stats complete, or no reference to fetch them from. -/
def StatsStable (h : Genome) : Prop :=
  statsMissing h = false ∨ (h.assembly_ref = none ∧ h.contigset_ref = none)

/-- Step-4/5 postcondition: all visited collections in normal form, retained
genes good. -/
def FeatDone (h : Genome) : Prop :=
  (∀ f ∈ h.mrnas, NormalFeat f) ∧ (∀ f ∈ h.cdss, NormalFeat f) ∧
  (∀ f ∈ h.features, GoodGene f)

/-- Loop invariant of `check_feature_ids_uniqueness` over an already processed
prefix `base`: `seen` holds exactly the ids occurring in `base`, and `dup`
binds exactly the ids occurring at least twice, to their occurrence count. -/
def checkInv (seen : List String) (dup : List (String × Nat)) (base : List Feature) : Prop :=
  ∀ i, (i ∈ seen ↔ 1 ≤ countId i base) ∧
    lookupA i dup = if 2 ≤ countId i base then some (countId i base) else none

/-- Removal of one top-level feature `f` from genome `g`, giving `g'`:
`f` sits in one of the four collections, and (for mrnas/cdss) is top-level,
i.e. not routed into `child_dict` by `build_gff_file`. -/
inductive RemovesTop (g g' : Genome) (f : Feature) : Prop
  | features (pre post : List Feature) :
      g.features = pre ++ f :: post → g' = { g with features := pre ++ post } →
      RemovesTop g g' f
  | nonCoding (pre post : List Feature) :
      g.non_coding_features = pre ++ f :: post →
      g' = { g with non_coding_features := pre ++ post } → RemovesTop g g' f
  | mrnas (pre post : List Feature) :
      truthyO f.parent_gene = false → g.mrnas = pre ++ f :: post →
      g' = { g with mrnas := pre ++ post } → RemovesTop g g' f
  | cdss (pre post : List Feature) :
      truthyO f.parent_gene = false → truthyO f.parent_mrna = false →
      g.cdss = pre ++ f :: post → g' = { g with cdss := pre ++ post } →
      RemovesTop g g' f

/-! ## Concrete records used by counterexamples and witnesses -/

/-- Trivial md5 collaborator used for concrete evaluations. -/
def cxMd5 : String → String := fun _ => "d41d8cd98f00b204e9800998ecf8427e"

/-- Trivial assembly collaborator used for concrete evaluations. -/
def cxFA : String → AssemblyData := fun _ => ⟨50, 100, "m", 1, none⟩

/-- Trivial contig-set collaborator used for concrete evaluations. -/
def cxFC : String → ContigsetData := fun _ => ⟨[100], "m"⟩

/-- Trivial taxonomy collaborator used for concrete evaluations. -/
def cxFT : Nat → TaxonData := fun _ => ⟨11, [("Bacteria", "superkingdom")], "Escherichia coli"⟩

/-- A non-coding gene (gene-typed, no CDS children). -/
def cxNcGene : Feature := { emptyFeature with
  id := "g1",
  type := some "gene",
  location := [⟨"c1", 1, "+", 5⟩] }

/-- Genome whose flat `features` list holds one non-coding gene (claim C1). -/
def cxGenomeC1 : Genome := { emptyGenome with
  source := "x",
  features := [cxNcGene] }

/-- First copy of the duplicated-id CDS (claim C2). -/
def cxDupA : Feature := { emptyFeature with
  id := "f1",
  type := some "CDS",
  location := [⟨"c1", 1, "+", 3⟩] }

/-- Second copy of the duplicated-id CDS (claim C2). -/
def cxDupB : Feature := { emptyFeature with
  id := "f1",
  type := some "CDS",
  location := [⟨"c1", 9, "+", 3⟩] }

/-- Genome carrying two features with the same id `"f1"` (claim C2). -/
def cxGenomeDup : Genome := { emptyGenome with
  source := "x",
  cdss := [cxDupA, cxDupB] }

/-- Candidate parent mRNA for claim C7: two exons `[1..10]` and `[20..24]`. -/
def cxParentMrna : Feature := { emptyFeature with
  id := "m1",
  type := some "mRNA",
  location := [⟨"c", 1, "+", 10⟩, ⟨"c", 20, "+", 5⟩] }

/-- Candidate child CDS for claim C7: second segment `[20..69]` overhangs the
parent's second exon but shares its anchor. -/
def cxChildCds : Feature := { emptyFeature with
  id := "c1",
  type := some "CDS",
  location := [⟨"c", 1, "+", 10⟩, ⟨"c", 20, "+", 50⟩] }

/-- An `RNA`-typed feature with a compound location (claim C8). -/
def cxRnaFeat : Feature := { emptyFeature with
  id := "r1",
  type := some "RNA",
  location := [⟨"c", 1, "+", 10⟩, ⟨"c", 20, "+", 5⟩] }

/-- A gene with one location segment (claims C9/C10 witnesses). -/
def cxGffGene : Feature := { emptyFeature with
  id := "g1",
  type := some "gene",
  location := [⟨"c1", 1, "+", 5⟩] }

/-- A gene sitting on a contig absent from `contig_ids` (claim C10). -/
def cxOffGene : Feature := { emptyFeature with
  id := "g2",
  type := some "gene",
  location := [⟨"cX", 1, "+", 5⟩] }

/-- Genome with `contig_ids = ["c1", "c2"]`, one gene on `c1` and one on the
unlisted contig `cX` (claims C9/C10). -/
def cxGenomeGff : Genome := { emptyGenome with
  source := "x",
  contig_ids := some ["c1", "c2"],
  features := [cxGffGene, cxOffGene] }

/-- The C10 genome with the off-contig gene removed. -/
def cxGenomeGffRemoved : Genome := { cxGenomeGff with
  features := [cxGffGene] }

/-- Concrete size model for the size-governance witness: every feature counts
as one unit over the threshold. -/
def wSize (g : Genome) : Nat :=
  (g.mrnas.length + g.features.length + g.non_coding_features.length + g.cdss.length) *
    (MAX_GENOME_SIZE + 1)

/-- Concrete collection-size model for the size-governance witness. -/
def wLsize (l : List Feature) : Nat := l.length * (MAX_GENOME_SIZE + 1)

/-- Concrete per-key size model for the size-governance witness. -/
def wKeySize (f : Feature) : List (String × Nat) := [("id", f.id.length)]

/-- A feature carrying a DNA sequence (size-governance witness). -/
def cxBigFeat : Feature := { emptyFeature with
  id := "m",
  dna_sequence := some "ACGT" }

/-- A genome oversized under `wSize` (size-governance witness). -/
def cxGenomeBig : Genome := { emptyGenome with
  mrnas := [cxBigFeat] }

/-! ## Helper lemmas -/

theorem lookupA_setA_self {α : Type} (k : String) (v : α) (d : List (String × α)) :
    lookupA k (setA k v d) = some v := by
  induction d with
  | nil => simp [setA, lookupA]
  | cons p rest ih =>
    by_cases h : p.1 = k
    · simp [setA, h, lookupA]
    · simp [setA, h, lookupA, ih]

theorem lookupA_setA_ne {α : Type} (k k' : String) (v : α) (d : List (String × α))
    (h : k' ≠ k) : lookupA k' (setA k v d) = lookupA k' d := by
  have hk : k ≠ k' := fun hh => h hh.symm
  induction d with
  | nil =>
    simp only [setA, lookupA]
    rw [if_neg hk]
  | cons p rest ih =>
    by_cases hp : p.1 = k
    · subst hp
      simp only [setA, if_pos rfl, lookupA]
      rw [if_neg hk, if_neg hk]
    · simp only [setA, if_neg hp, lookupA]
      by_cases hp' : p.1 = k'
      · simp [hp']
      · simp [hp', ih]

theorem lookupA_append_single {α : Type} (k k2 : String) (v : α) (d : List (String × α)) :
    lookupA k (d ++ [(k2, v)]) =
      match lookupA k d with
      | some x => some x
      | none => if k2 = k then some v else none := by
  induction d with
  | nil => simp [lookupA]
  | cons p rest ih =>
    by_cases hp : p.1 = k
    · simp [lookupA, hp]
    · simp [lookupA, hp, ih]

/-! ## Claim C4: sentinel for unrecognised strand values -/

/-- Claim C4 counterexample: for the location `("c", 5, "*", 2)` the strand is
neither `+` nor `-`; `get_start` and `get_end` do return the sentinel 0, but
`get_bio_end` returns `anchor - length = 3`, not 0, refuting the claim that
all three coordinate functions return the sentinel. -/
theorem c4_counterexample :
    get_start ⟨"c", 5, "*", 2⟩ = 0 ∧ get_end ⟨"c", 5, "*", 2⟩ = 0 ∧
      get_bio_end ⟨"c", 5, "*", 2⟩ ≠ 0 := by decide

/-- Claim C4 amended: for every location whose strand is neither `+` nor `-`,
`get_start` and `get_end` return the sentinel 0, while `get_bio_end` treats
the strand as `-` and returns `anchor - length`. -/
theorem c4_amended (loc : Loc) (h1 : loc.strand ≠ "+") (h2 : loc.strand ≠ "-") :
    get_start loc = 0 ∧ get_end loc = 0 ∧ get_bio_end loc = loc.anchor - loc.length := by
  unfold get_start get_end get_bio_end
  simp [h1, h2]

/-- Witness for `c4_amended` at the concrete location `("c", 5, "*", 2)`. -/
theorem c4_amended_witness :
    get_start ⟨"c", 5, "*", 2⟩ = 0 ∧ get_end ⟨"c", 5, "*", 2⟩ = 0 ∧
      get_bio_end ⟨"c", 5, "*", 2⟩ = 5 - 2 :=
  c4_amended ⟨"c", 5, "*", 2⟩ (by decide) (by decide)

/-! ## Claim C5: length/coordinate relation -/

/-- Claim C5: for every location with `length ≥ 1`, on the `+` strand
`end - start + 1 = length`; on the `-` strand `start ≤ end` and
`end - start + 1 = length`. -/
theorem c5_length_relation (loc : Loc) (h : 1 ≤ loc.length) :
    (loc.strand = "+" → get_end loc - get_start loc + 1 = loc.length) ∧
    (loc.strand = "-" →
      get_start loc ≤ get_end loc ∧ get_end loc - get_start loc + 1 = loc.length) := by
  constructor
  · intro hs
    simp [get_start, get_end, hs]
  · intro hs
    have h1 : get_start loc = loc.anchor - (loc.length - 1) := by
      unfold get_start
      rw [hs]
      simp
    have h2 : get_end loc = loc.anchor := by
      unfold get_end
      rw [hs]
      simp
    rw [h1, h2]
    omega

/-- Witness for `c5_length_relation` at the concrete location `("c", 10, "-", 5)`. -/
theorem c5_length_relation_witness :
    (Loc.strand ⟨"c", 10, "-", 5⟩ = "+" →
      get_end ⟨"c", 10, "-", 5⟩ - get_start ⟨"c", 10, "-", 5⟩ + 1 = 5) ∧
    (Loc.strand ⟨"c", 10, "-", 5⟩ = "-" →
      get_start ⟨"c", 10, "-", 5⟩ ≤ get_end ⟨"c", 10, "-", 5⟩ ∧
        get_end ⟨"c", 10, "-", 5⟩ - get_start ⟨"c", 10, "-", 5⟩ + 1 = 5) :=
  c5_length_relation ⟨"c", 10, "-", 5⟩ (by decide)

/-! ## Claim C6: the source/tier table -/

/-- Claim C6 counterexample: on the source string `"Phytozome Flagship"` the
claimed table gives `("Phytozome", [Reference, Representative, ExternalDB])`
(case-insensitive `flagship` match), but `determine_tier` returns
`("Phytosome", [Representative, ExternalDB])`: the code spells the source
`"Phytosome"` and matches `flagship` case-sensitively against the raw string. -/
theorem c6_counterexample :
    determine_tier "Phytozome Flagship" = ("Phytosome", ["Representative", "ExternalDB"]) ∧
    determineTierClaim "Phytozome Flagship" =
      ("Phytozome", ["Reference", "Representative", "ExternalDB"]) ∧
    determine_tier "Phytozome Flagship" ≠ determineTierClaim "Phytozome Flagship" := by
  refine ⟨by decide, by decide, by decide⟩

/-- Claim C6 amended: `determine_tier` follows the first-match-wins substring
table of the claim with two changes forced by the code: the Phytozome rows
yield the source string `"Phytosome"`, and the `flagship` keyword is matched
case-sensitively against the raw source. -/
theorem c6_amended (source : String) : determine_tier source = determineTierAmended source := by
  unfold determine_tier determineTierAmended tierRules ruleMatches
  by_cases h1 : strContains (lowerStr source) "refseq" <;>
    by_cases h2 : strContains (lowerStr source) "reference" <;>
      by_cases h3 : strContains (lowerStr source) "representative" <;>
        by_cases h4 : strContains (lowerStr source) "user" <;>
          by_cases h5 : strContains (lowerStr source) "phytozome" <;>
            by_cases h6 : strContains source "flagship" <;>
              by_cases h7 : strContains (lowerStr source) "ensembl" <;>
                simp [h1, h2, h3, h4, h5, h6, h7, List.find?, List.all]

/-! ## Claim C8: per-kind line structure of the GFF/GTF emitter -/

/-- Claim C8 counterexample: an `RNA`-typed feature is outside the claim's
set of five spliceable kinds, so the claim predicts one verbatim line per
location segment (two here); `make_feature_group` instead treats `RNA` as
spliceable and emits three lines (merged envelope plus two exons). -/
theorem c8_counterexample :
    (make_feature_group false [] 1 cxRnaFeat).length = 3 ∧
      cxRnaFeat.location.length = 2 ∧
      make_feature_group false [] 1 cxRnaFeat ≠
        cxRnaFeat.location.map (fun loc => make_feature loc cxRnaFeat false) := by
  refine ⟨by decide, by decide, by decide⟩

/-- Claim C8 amended: a feature of kind `RNA`, `mRNA`, `tRNA`, `rRNA`,
`misc_RNA` or `transcript` (the claim's five kinds plus `RNA`) with no child
references produces one line for its merged envelope location plus one exon
line per original segment; a feature of any other kind produces exactly one
line per location segment verbatim. -/
theorem c8_amended (isGtf : Bool) (cd : List (String × Feature)) (fuel : Nat)
    (f : Feature) (h1 : f.mrnas = []) (h2 : f.cdss = []) (h3 : cdsTruthy f = false) :
    make_feature_group isGtf cd (fuel + 1) f =
      if spliceKinds.contains (f.type.getD "") then
        make_feature (get_common_location f.location) f isGtf ::
          (List.range f.location.length).map (fun i =>
            make_feature (f.location.getD i default) (exonFeature f i) isGtf)
      else f.location.map fun loc => make_feature loc f isGtf := by
  unfold make_feature_group ownLines
  simp [h1, h2, h3]

/-- Witness for `c8_amended` at the concrete `RNA` feature. -/
theorem c8_amended_witness :
    make_feature_group false [] 1 cxRnaFeat =
      if spliceKinds.contains (cxRnaFeat.type.getD "") then
        make_feature (get_common_location cxRnaFeat.location) cxRnaFeat false ::
          (List.range cxRnaFeat.location.length).map (fun i =>
            make_feature (cxRnaFeat.location.getD i default) (exonFeature cxRnaFeat i) false)
      else cxRnaFeat.location.map fun loc => make_feature loc cxRnaFeat false :=
  c8_amended false [] 0 cxRnaFeat (by decide) (by decide) (by decide)

/-! ## Claim C3: size governance -/

theorem stripDna_none (l : List Feature) : ∀ f ∈ stripDna l, f.dna_sequence = none := by
  intro f hf
  unfold stripDna at hf
  obtain ⟨x, _, hx⟩ := List.mem_map.mp hf
  simp [← hx]

/-- Claim C3: over any size model in which a collection's serialized size
never exceeds the containing genome's serialized size, `handle_large_genomes`
on an oversized genome either returns a genome at or below `MAX_GENOME_SIZE`
with `dna_sequence` removed from every feature of every originally oversized
collection, or raises a size error whose recorded total exceeds the
threshold; it never returns an oversized genome. -/
theorem c3_size_governance (size : Genome → Nat) (lsize : List Feature → Nat)
    (keySize : Feature → List (String × Nat)) (g : Genome)
    (hsub : ∀ g' : Genome, lsize g'.mrnas ≤ size g' ∧ lsize g'.features ≤ size g' ∧
      lsize g'.non_coding_features ≤ size g' ∧ lsize g'.cdss ≤ size g')
    (hover : size g > MAX_GENOME_SIZE) :
    (∀ g', handle_large_genomes size keySize g = .ok g' →
      size g' ≤ MAX_GENOME_SIZE ∧
      (lsize g.mrnas > MAX_GENOME_SIZE → ∀ f ∈ g'.mrnas, f.dna_sequence = none) ∧
      (lsize g.features > MAX_GENOME_SIZE → ∀ f ∈ g'.features, f.dna_sequence = none) ∧
      (lsize g.non_coding_features > MAX_GENOME_SIZE →
        ∀ f ∈ g'.non_coding_features, f.dna_sequence = none) ∧
      (lsize g.cdss > MAX_GENOME_SIZE → ∀ f ∈ g'.cdss, f.dna_sequence = none)) ∧
    (∀ e, handle_large_genomes size keySize g = .error e →
      e.total > MAX_GENOME_SIZE) := by
  have A1 := hsub { g with
    mrnas := stripDna g.mrnas }
  have A2 := hsub { g with
    mrnas := stripDna g.mrnas,
    features := stripDna g.features }
  have A3 := hsub { g with
    mrnas := stripDna g.mrnas,
    non_coding_features := stripDna g.non_coding_features }
  have A4 := hsub { g with
    mrnas := stripDna g.mrnas,
    features := stripDna g.features,
    non_coding_features := stripDna g.non_coding_features }
  have A5 := hsub { g with
    mrnas := stripDna g.mrnas,
    cdss := stripDna g.cdss }
  have A6 := hsub { g with
    mrnas := stripDna g.mrnas,
    features := stripDna g.features,
    cdss := stripDna g.cdss }
  have A7 := hsub { g with
    mrnas := stripDna g.mrnas,
    non_coding_features := stripDna g.non_coding_features,
    cdss := stripDna g.cdss }
  have A8 := hsub { g with
    mrnas := stripDna g.mrnas,
    features := stripDna g.features,
    non_coding_features := stripDna g.non_coding_features,
    cdss := stripDna g.cdss }
  unfold handle_large_genomes sizeStep
  rw [if_pos hover]
  dsimp only
  constructor
  · intro g' hok
    split_ifs at hok
    all_goals
      simp only [Except.ok.injEq] at hok
      subst hok
    all_goals dsimp only at *
    all_goals
      refine ⟨by omega, ?_, ?_, ?_, ?_⟩ <;>
        first
          | exact fun _ => stripDna_none _
          | (intro hh; exfalso; omega)
  · intro e herr
    split_ifs at herr
    all_goals
      simp only [Except.error.injEq] at herr
      subst herr
    all_goals dsimp only at *
    all_goals omega

/-- Witness for `c3_size_governance` with the concrete unit-size model: the
oversized one-mRNA genome reaches the size-exceeded error, whose recorded
total exceeds the threshold. -/
theorem c3_size_governance_witness :
    SizeErr.total ⟨MAX_GENOME_SIZE + 1,
      [("mrnas", [("id", 1)]), ("features", []), ("non_coding_features", []), ("cdss", [])]⟩ >
      MAX_GENOME_SIZE :=
  (c3_size_governance wSize wLsize wKeySize cxGenomeBig
    (by
      intro g'
      unfold wSize wLsize
      refine ⟨?_, ?_, ?_, ?_⟩ <;> exact Nat.mul_le_mul_right _ (by omega))
    (by decide)).2
    ⟨MAX_GENOME_SIZE + 1,
      [("mrnas", [("id", 1)]), ("features", []), ("non_coding_features", []), ("cdss", [])]⟩
    rfl

/-! ## Claim C7: geometric containment testing (`is_parent`) -/

theorem searchFrom_ge (ps : List Loc) (l : Loc) (j : Nat) (h : ps.length ≤ j) :
    searchFrom ps l j = none := by
  unfold searchFrom
  rw [Nat.sub_eq_zero_of_le h]
  rfl

theorem isParentGo_gene (ps : List Loc) (clen : Nat) :
    ∀ (cl : List Loc) (i j : Nat), isParentGo true ps clen cl i j = geneWalk ps cl j := by
  intro cl
  induction cl with
  | nil => intro i j; rfl
  | cons l rest ih =>
    intro i j
    unfold isParentGo geneWalk
    by_cases h : ps.length ≤ j
    · rw [if_pos h, searchFrom_ge ps l j h]
    · rw [if_neg h]
      cases hs : searchFrom ps l j with
      | none => simp [hs]
      | some j' => simp [hs, ih]

theorem isParentGo_tail (ps : List Loc) (clen : Nat) :
    ∀ (rest : List Loc) (i j : Nat), 1 ≤ i → i + rest.length = clen →
      isParentGo false ps clen rest i j = tailWalk ps rest j := by
  intro rest
  induction rest with
  | nil => intro i j _ _; rfl
  | cons l rest2 ih =>
    intro i j h1 h2
    simp only [List.length_cons] at h2
    cases rest2 with
    | nil =>
      have hi0 : (i = 0) = False := by
        simp only [eq_iff_iff, iff_false]
        omega
      have hil : (i = clen - 1) = True := by
        simp only [List.length_nil] at h2
        simp only [eq_iff_iff, iff_true]
        omega
      unfold isParentGo tailWalk boundaryOk
      by_cases h : ps.length ≤ j
      · rw [if_pos h]
        have hnj : (j < ps.length) = False := by
          simp only [eq_iff_iff, iff_false]
          omega
        simp [hnj]
      · rw [if_neg h]
        have hj : j < ps.length := by omega
        simp [hi0, hil, hj, isParentGo]
    | cons l2 rest3 =>
      have hi0 : (i = 0) = False := by
        simp only [eq_iff_iff, iff_false]
        omega
      have hil : (i = clen - 1) = False := by
        simp only [List.length_cons] at h2
        simp only [eq_iff_iff, iff_false]
        omega
      unfold isParentGo tailWalk boundaryOk
      by_cases h : ps.length ≤ j
      · rw [if_pos h]
        have hnj : (j < ps.length) = False := by
          simp only [eq_iff_iff, iff_false]
          omega
        simp [hnj]
      · rw [if_neg h]
        have hj : j < ps.length := by omega
        have hrec := ih (i + 1) (j + 1) (by omega) (by
          simp only [List.length_cons] at h2 ⊢
          omega)
        simp [hi0, hil, hj, hrec]

/-- Claim C7 counterexample: the mRNA parent has exons `[1..10]` and
`[20..24]`; the CDS child's last segment `[20..69]` is *not* contained in any
parent segment, so the claimed containment walk rejects the pair, yet
`is_parent` accepts it (the code checks only anchor equality for the final
child segment). -/
theorem c7_counterexample :
    is_parent cxParentMrna cxChildCds = true ∧
      isParentClaim cxParentMrna cxChildCds = false := by
  refine ⟨by decide, by decide⟩

/-- Claim C7 amended: `is_parent` equals the amended walk: a gene parent
checks greedy per-segment containment only; for a non-gene parent, only the
first child segment is searched for a containing parent segment (with equal
biological end unless the child is single-segment, where containment alone
suffices); subsequent child segments are compared against consecutive parent
segments - interior ones by exact equality, the final one by anchor equality
alone, with no containment, contig or strand check. -/
theorem c7_amended (feat1 feat2 : Feature) :
    is_parent feat1 feat2 = isParentAmended feat1 feat2 := by
  unfold is_parent isParentAmended
  by_cases hg : feat1.type = some "gene"
  · have hgb : (decide (feat1.type = some "gene")) = true := by simp [hg]
    rw [hgb, if_pos hg]
    exact isParentGo_gene _ _ _ _ _
  · have hgb : (decide (feat1.type = some "gene")) = false := by simp [hg]
    rw [hgb, if_neg hg]
    cases hl : feat2.location with
    | nil => rfl
    | cons l rest =>
      cases rest with
      | nil =>
        dsimp only
        unfold isParentGo
        by_cases h : feat1.location.length ≤ 0
        · rw [if_pos h, searchFrom_ge _ _ _ h]
          rfl
        · rw [if_neg h]
          cases hs : searchFrom feat1.location l 0 with
          | none => simp [hs]
          | some j' => simp [hs, isParentGo]
      | cons l2 rest3 =>
        dsimp only
        unfold isParentGo
        by_cases h : feat1.location.length ≤ 0
        · rw [if_pos h, searchFrom_ge _ _ _ h]
        · rw [if_neg h]
          cases hs : searchFrom feat1.location l 0 with
          | none => simp [hs]
          | some j0 =>
            have hclen : ((l :: l2 :: rest3).length = 1) = False := by simp
            have hrec := isParentGo_tail feat1.location (l :: l2 :: rest3).length
              (l2 :: rest3) 1 (j0 + 1) (by omega)
              (by simp only [List.length_cons]; omega)
            simp only [List.length_cons] at hrec
            simp [hs, hclen, boundaryOk, hrec]

/-! ## Claim C2: duplicate feature ids -/

theorem countId_append (i : String) (l1 l2 : List Feature) :
    countId i (l1 ++ l2) = countId i l1 + countId i l2 := by
  simp [countId, List.countP_append]

theorem countId_cons (i : String) (f : Feature) (l : List Feature) :
    countId i (f :: l) = countId i l + (if f.id = i then 1 else 0) := by
  simp only [countId, List.countP_cons]
  split <;> simp_all

theorem countId_single (i : String) (f : Feature) :
    countId i [f] = if f.id = i then 1 else 0 := by
  simp only [countId, List.countP_cons, List.countP_nil, Nat.zero_add]
  split <;> simp_all

theorem checkGo_inv (fs : List Feature) :
    ∀ (seen : List String) (dup : List (String × Nat)) (base : List Feature),
      checkInv seen dup base →
      checkInv (checkGo (seen, dup) fs).1 (checkGo (seen, dup) fs).2 (base ++ fs) := by
  induction fs with
  | nil =>
    intro seen dup base h
    simpa [checkGo] using h
  | cons f fs ih =>
    intro seen dup base h
    have hassoc : base ++ f :: fs = (base ++ [f]) ++ fs := by simp
    rw [hassoc]
    by_cases hmem : f.id ∈ seen
    · have h1 := (h f.id).1.mp hmem
      cases hl : lookupA f.id dup with
      | some n =>
        have h2 := (h f.id).2
        rw [hl] at h2
        by_cases hc : 2 ≤ countId f.id base
        case neg => rw [if_neg hc] at h2; cases h2
        rw [if_pos hc] at h2
        injection h2 with hn
        have hinv : checkInv seen (setA f.id (n + 1) dup) (base ++ [f]) := by
          intro i
          constructor
          · rw [countId_append, countId_single]
            by_cases hfi : f.id = i
            · simp only [if_pos hfi]
              constructor
              · intro _
                omega
              · intro _
                rw [← hfi]
                exact hmem
            · simp only [if_neg hfi, Nat.add_zero]
              exact (h i).1
          · rw [countId_append, countId_single]
            by_cases hfi : f.id = i
            · subst hfi
              rw [lookupA_setA_self, if_pos rfl, if_pos (by omega)]
              simp only [Option.some.injEq]
              omega
            · rw [lookupA_setA_ne _ _ _ _ (fun hh => hfi hh.symm), if_neg hfi, Nat.add_zero]
              exact (h i).2
        have hrest := ih seen (setA f.id (n + 1) dup) (base ++ [f]) hinv
        simpa [checkGo, hmem, hl] using hrest
      | none =>
        have h2 := (h f.id).2
        rw [hl] at h2
        have hc : countId f.id base = 1 := by
          by_cases hc2 : 2 ≤ countId f.id base
          · rw [if_pos hc2] at h2
            cases h2
          · omega
        have hinv : checkInv seen (dup ++ [(f.id, 2)]) (base ++ [f]) := by
          intro i
          constructor
          · rw [countId_append, countId_single]
            by_cases hfi : f.id = i
            · simp only [if_pos hfi]
              constructor
              · intro _
                omega
              · intro _
                rw [← hfi]
                exact hmem
            · simp only [if_neg hfi, Nat.add_zero]
              exact (h i).1
          · rw [lookupA_append_single, countId_append, countId_single]
            by_cases hfi : f.id = i
            · subst hfi
              rw [hl, if_pos rfl, hc]
              simp
            · simp only [if_neg hfi, Nat.add_zero]
              rw [(h i).2]
              split
              all_goals
                rename_i heqi
                exact heqi.symm
        have hrest := ih seen (dup ++ [(f.id, 2)]) (base ++ [f]) hinv
        simpa [checkGo, hmem, hl] using hrest
    · have h0 : countId f.id base = 0 := by
        by_cases hc : 1 ≤ countId f.id base
        · exact absurd ((h f.id).1.mpr hc) hmem
        · omega
      have hinv : checkInv (f.id :: seen) dup (base ++ [f]) := by
        intro i
        constructor
        · rw [countId_append, countId_single]
          by_cases hfi : f.id = i
          · simp only [if_pos hfi]
            constructor
            · intro _
              omega
            · intro _
              rw [← hfi]
              exact List.mem_cons_self _ _
          · simp only [if_neg hfi, Nat.add_zero]
            constructor
            · intro hi
              rcases List.mem_cons.mp hi with hh | hh
              · exact absurd hh.symm hfi
              · exact (h i).1.mp hh
            · intro hc1
              exact List.mem_cons_of_mem _ ((h i).1.mpr hc1)
        · rw [countId_append, countId_single]
          by_cases hfi : f.id = i
          · subst hfi
            rw [if_pos rfl, h0, (h f.id).2, h0]
            simp
          · rw [if_neg hfi, Nat.add_zero]
            exact (h i).2
      have hrest := ih (f.id :: seen) dup (base ++ [f]) hinv
      simpa [checkGo, hmem] using hrest

theorem normFeat_id (m : String → String) (st : OntSt) (f : Feature) :
    ((normFeat m st f).1).id = f.id := by
  unfold normFeat
  dsimp only
  repeat' split
  all_goals rfl

theorem normCount_id (m : String → String) (st : OntSt) (c : List (String × Nat))
    (f : Feature) : ((normCount m st c f).1).id = f.id := by
  unfold normCount
  exact normFeat_id m st f

theorem normList_countId (m : String → String) (i : String) :
    ∀ (fs : List Feature) (st : OntSt) (c : List (String × Nat)),
      countId i (normList m st c fs).1 = countId i fs := by
  intro fs
  induction fs with
  | nil => intro st c; rfl
  | cons f fs ih =>
    intro st c
    unfold normList
    rw [countId_cons, countId_cons]
    rw [ih, normCount_id]

theorem featPass_countId (m : String → String) (i : String) :
    ∀ (fs : List Feature) (st : OntSt) (c : List (String × Nat)),
      (∀ f ∈ fs, (f.type.getD "gene") ∈ (["gene", "CDS", "mRNA"] : List String)) →
      countId i (featPass m st c fs).retained + countId i (featPass m st c fs).ncNew +
        countId i (featPass m st c fs).cdsNew + countId i (featPass m st c fs).mrnaNew =
        countId i fs := by
  intro fs
  induction fs with
  | nil => intro st c _; simp [featPass, countId]
  | cons f fs ih =>
    intro st c h
    have hid : ((normCount m st c f).1).id = f.id := normCount_id m st c f
    have htf := h f (List.mem_cons_self _ _)
    have hrest : ∀ f' ∈ fs, (f'.type.getD "gene") ∈ (["gene", "CDS", "mRNA"] : List String) :=
      fun f' hf' => h f' (List.mem_cons_of_mem _ hf')
    unfold featPass
    dsimp only
    rw [countId_cons]
    by_cases h1 : ((normCount m st c f).1).type.getD "gene" = "gene"
    · rw [if_pos h1]
      by_cases h2 : ((normCount m st c f).1).cdss.isEmpty
      · rw [if_pos h2]
        dsimp only
        rw [countId_cons]
        have := ih (normCount m st c f).2.1 (bumpA "non_coding_genes" (normCount m st c f).2.2) hrest
        rw [hid]
        omega
      · rw [if_neg h2]
        dsimp only
        rw [countId_cons]
        have := ih (normCount m st c f).2.1 (normCount m st c f).2.2 hrest
        rw [hid]
        omega
    · rw [if_neg h1]
      by_cases h2 : ((normCount m st c f).1).type.getD "gene" = "CDS"
      · rw [if_pos h2]
        dsimp only
        rw [countId_cons]
        have := ih (normCount m st c f).2.1 (normCount m st c f).2.2 hrest
        have hid2 :
            (if ((normCount m st c f).1).parent_gene = none then
              { (normCount m st c f).1 with parent_gene := some "" }
            else (normCount m st c f).1).id = f.id := by
          split
          · exact hid
          · exact hid
        rw [hid2]
        omega
      · rw [if_neg h2]
        by_cases h3 : ((normCount m st c f).1).type.getD "gene" = "mRNA"
        · rw [if_pos h3]
          dsimp only
          rw [countId_cons]
          have := ih (normCount m st c f).2.1 (normCount m st c f).2.2 hrest
          have hid2 :
              (if ((normCount m st c f).1).parent_gene = none then
                { (normCount m st c f).1 with parent_gene := some "" }
              else (normCount m st c f).1).id = f.id := by
            split
            · exact hid
            · exact hid
          rw [hid2]
          omega
        · exfalso
          have htype : ((normCount m st c f).1).type = f.type := by
            unfold normCount
            dsimp only
            unfold normFeat
            dsimp only
            repeat' split
            all_goals rfl
          rw [htype] at h1 h2 h3
          simp only [List.mem_cons, List.not_mem_nil, or_false] at htf
          rcases htf with hh | hh | hh
          · exact h1 hh
          · exact h2 hh
          · exact h3 hh

theorem stepTiers_colls (g : Genome) :
    (stepTiers g).features = g.features ∧ (stepTiers g).cdss = g.cdss ∧
      (stepTiers g).mrnas = g.mrnas ∧
      (stepTiers g).non_coding_features = g.non_coding_features := by
  unfold stepTiers
  cases g.genome_tiers <;> exact ⟨rfl, rfl, rfl, rfl⟩

theorem stepMolecule_colls (g : Genome) :
    (stepMolecule g).features = g.features ∧ (stepMolecule g).cdss = g.cdss ∧
      (stepMolecule g).mrnas = g.mrnas ∧
      (stepMolecule g).non_coding_features = g.non_coding_features := by
  unfold stepMolecule
  cases g.molecule_type <;> exact ⟨rfl, rfl, rfl, rfl⟩

theorem set_default_colls (g : Genome) :
    (set_default_taxon_data g).features = g.features ∧
      (set_default_taxon_data g).cdss = g.cdss ∧
      (set_default_taxon_data g).mrnas = g.mrnas ∧
      (set_default_taxon_data g).non_coding_features = g.non_coding_features := by
  unfold set_default_taxon_data
  dsimp only
  repeat' split
  all_goals exact ⟨rfl, rfl, rfl, rfl⟩

theorem set_taxon_colls (fT : Nat → TaxonData) (tid : Nat) (g : Genome) :
    (set_taxon_data fT tid g).features = g.features ∧
      (set_taxon_data fT tid g).cdss = g.cdss ∧
      (set_taxon_data fT tid g).mrnas = g.mrnas ∧
      (set_taxon_data fT tid g).non_coding_features = g.non_coding_features := by
  unfold set_taxon_data addWarning
  dsimp only
  repeat' split
  all_goals exact ⟨rfl, rfl, rfl, rfl⟩

theorem stepTaxon_colls (fT : Nat → TaxonData) (g : Genome) :
    (stepTaxon fT g).features = g.features ∧ (stepTaxon fT g).cdss = g.cdss ∧
      (stepTaxon fT g).mrnas = g.mrnas ∧
      (stepTaxon fT g).non_coding_features = g.non_coding_features := by
  unfold stepTaxon
  cases ncbiId g with
  | none => exact set_default_colls g
  | some tid => exact set_taxon_colls fT tid g

theorem stepAssembly_colls (fA : String → AssemblyData) (fC : String → ContigsetData)
    (g : Genome) :
    (stepAssembly fA fC g).features = g.features ∧ (stepAssembly fA fC g).cdss = g.cdss ∧
      (stepAssembly fA fC g).mrnas = g.mrnas ∧
      (stepAssembly fA fC g).non_coding_features = g.non_coding_features := by
  unfold stepAssembly
  dsimp only
  repeat' split
  all_goals exact ⟨rfl, rfl, rfl, rfl⟩

theorem featurePhase_countId (m : String → String) (i : String) (h : Genome)
    (htypes : ∀ f ∈ h.features, (f.type.getD "gene") ∈ (["gene", "CDS", "mRNA"] : List String)) :
    countId i (allFeats (featurePhase m h)) = countId i (allFeats h) := by
  unfold featurePhase allFeats
  dsimp only
  have h1 := normList_countId m i h.mrnas ⟨h.ontologies_present, h.ontology_events⟩ []
  have h2 := normList_countId m i h.cdss
    (normList m ⟨h.ontologies_present, h.ontology_events⟩ [] h.mrnas).2.1
    (normList m ⟨h.ontologies_present, h.ontology_events⟩ [] h.mrnas).2.2
  have h3 := featPass_countId m i h.features
    (normList m (normList m ⟨h.ontologies_present, h.ontology_events⟩ [] h.mrnas).2.1
      (normList m ⟨h.ontologies_present, h.ontology_events⟩ [] h.mrnas).2.2 h.cdss).2.1
    (normList m (normList m ⟨h.ontologies_present, h.ontology_events⟩ [] h.mrnas).2.1
      (normList m ⟨h.ontologies_present, h.ontology_events⟩ [] h.mrnas).2.2 h.cdss).2.2
    htypes
  simp only [countId_append]
  omega

/-- Claim C2 counterexample: on a genome whose `cdss` list carries two
features with id `"f1"`, the migrator raises nothing and retains both copies
(the migrated genome still holds two `"f1"` features), and the separate
checker merely reports `{"f1": 2}`. -/
theorem c2_counterexample :
    countId "f1" (allFeats (update_genome cxMd5 cxFA cxFC cxFT cxGenomeDup)) = 2 ∧
      check_feature_ids_uniqueness (update_genome cxMd5 cxFA cxFC cxFT cxGenomeDup) =
        .ok [("f1", 2)] := by
  refine ⟨by decide, rfl⟩

/-- Claim C2 amended: migration does not enforce feature-id uniqueness; for a
genome whose flat features all carry recognised kinds, migration preserves
every id's occurrence count across the four collections (duplicates are
silently retained); the uncalled helper `check_feature_ids_uniqueness`
reports exactly the ids occurring at least twice, each mapped to its
occurrence count, raising only when the genome holds no features at all. -/
theorem c2_amended (g : Genome) (i : String) (md5hex : String → String)
    (fA : String → AssemblyData) (fC : String → ContigsetData) (fT : Nat → TaxonData)
    (hne : allFeats g ≠ [])
    (htypes : ∀ f ∈ g.features, (f.type.getD "gene") ∈ (["gene", "CDS", "mRNA"] : List String)) :
    (∃ d, check_feature_ids_uniqueness g = .ok d ∧
      lookupA i d =
        if 2 ≤ countId i (allFeats g) then some (countId i (allFeats g)) else none) ∧
    countId i (allFeats (update_genome md5hex fA fC fT g)) = countId i (allFeats g) := by
  constructor
  · have hinv0 : checkInv [] [] [] := by
      intro j
      refine ⟨?_, ?_⟩
      · simp [countId]
      · simp [countId, lookupA]
    have hinv := checkGo_inv (allFeats g) [] [] [] hinv0
    rw [List.nil_append] at hinv
    refine ⟨(checkGo ([], []) (allFeats g)).2, ?_, (hinv i).2⟩
    have hf0 : ∃ f0 rest, allFeats g = f0 :: rest := by
      cases hf : allFeats g with
      | nil => exact absurd hf hne
      | cons a b => exact ⟨a, b, rfl⟩
    obtain ⟨f0, rest, hf⟩ := hf0
    have hmem : f0.id ∈ (checkGo ([], []) (allFeats g)).1 := by
      apply (hinv f0.id).1.mpr
      rw [hf, countId_cons]
      simp
    have hne2 : (checkGo ([], []) (allFeats g)).1.isEmpty = false := by
      cases hchk : (checkGo ([], []) (allFeats g)).1 with
      | nil =>
        rw [hchk] at hmem
        exact absurd hmem (List.not_mem_nil _)
      | cons a b => rfl
    unfold check_feature_ids_uniqueness
    rcases hpair : checkGo ([], []) (allFeats g) with ⟨seen, dup⟩
    rw [hpair] at hne2
    dsimp only at hne2 ⊢
    rw [hne2]
    simp
  · unfold update_genome
    set g3 := stepAssembly fA fC (stepTaxon fT (stepMolecule (stepTiers g))) with hg3
    have hcolls : g3.features = g.features ∧ g3.cdss = g.cdss ∧ g3.mrnas = g.mrnas ∧
        g3.non_coding_features = g.non_coding_features := by
      have ht := stepTiers_colls g
      have hm := stepMolecule_colls (stepTiers g)
      have hx := stepTaxon_colls fT (stepMolecule (stepTiers g))
      have ha := stepAssembly_colls fA fC (stepTaxon fT (stepMolecule (stepTiers g)))
      rw [hg3]
      refine ⟨?_, ?_, ?_, ?_⟩
      · rw [ha.1, hx.1, hm.1, ht.1]
      · rw [ha.2.1, hx.2.1, hm.2.1, ht.2.1]
      · rw [ha.2.2.1, hx.2.2.1, hm.2.2.1, ht.2.2.1]
      · rw [ha.2.2.2, hx.2.2.2, hm.2.2.2, ht.2.2.2]
    have hmain := featurePhase_countId md5hex i g3 (by
      rw [hcolls.1]
      exact htypes)
    rw [hmain]
    unfold allFeats
    rw [hcolls.1, hcolls.2.1, hcolls.2.2.1, hcolls.2.2.2]

/-- Witness for `c2_amended` at the duplicated-id genome and id `"f1"`. -/
theorem c2_amended_witness :
    (∃ d, check_feature_ids_uniqueness cxGenomeDup = .ok d ∧
      lookupA "f1" d =
        if 2 ≤ countId "f1" (allFeats cxGenomeDup) then
          some (countId "f1" (allFeats cxGenomeDup))
        else none) ∧
    countId "f1" (allFeats (update_genome cxMd5 cxFA cxFC cxFT cxGenomeDup)) =
      countId "f1" (allFeats cxGenomeDup) :=
  c2_amended cxGenomeDup "f1" cxMd5 cxFA cxFC cxFT (by decide) (by decide)

/-! ## Claim C10: contig iteration and off-contig features -/

theorem flatMap_congr {α β : Type} (l : List α) (f h : α → List β)
    (hfh : ∀ a ∈ l, f a = h a) : l.flatMap f = l.flatMap h := by
  induction l with
  | nil => rfl
  | cons a rest ih =>
    rw [List.flatMap_cons, List.flatMap_cons, hfh a (List.mem_cons_self _ _),
      ih fun a' ha' => hfh a' (List.mem_cons_of_mem _ ha')]

theorem outHeaders_append (a b : List OutLine) :
    outHeaders (a ++ b) = outHeaders a ++ outHeaders b := by
  simp [outHeaders, List.filterMap_append]

theorem outHeaders_rows (xs : List GffLine) : outHeaders (xs.map OutLine.row) = [] := by
  induction xs with
  | nil => rfl
  | cons x xs ih => simp [outHeaders, List.filterMap_cons]

theorem outHeaders_rowblock (xs : List Feature) (fn : Feature → List GffLine) :
    outHeaders (xs.flatMap fun f => (fn f).map OutLine.row) = [] := by
  induction xs with
  | nil => rfl
  | cons x xs ih =>
    rw [List.flatMap_cons, outHeaders_append, outHeaders_rows, ih]
    rfl

theorem outHeaders_emit (fuel : Nat) (isGtf : Bool) (h : Genome) :
    outHeaders (emitGff fuel isGtf h) = contigOrder h := by
  unfold emitGff
  generalize contigOrder h = cs
  induction cs with
  | nil => rfl
  | cons c cs ih =>
    rw [List.flatMap_cons, outHeaders_append]
    rw [show OutLine.header c ::
        ((sortFeatures (bucketOf h c)).flatMap fun f =>
          (make_feature_group isGtf (childDictOf h) fuel f).map OutLine.row) =
        [OutLine.header c] ++
        ((sortFeatures (bucketOf h c)).flatMap fun f =>
          (make_feature_group isGtf (childDictOf h) fuel f).map OutLine.row) from rfl]
    rw [outHeaders_append, outHeaders_rowblock, ih]
    rfl

theorem emitGff_congr (fuel : Nat) (isGtf : Bool) (h1 h2 : Genome) (l : List String)
    (hc1 : contigOrder h1 = l) (hc2 : contigOrder h2 = l)
    (hcd : childDictOf h1 = childDictOf h2)
    (hb : ∀ c ∈ l, bucketOf h1 c = bucketOf h2 c) :
    emitGff fuel isGtf h1 = emitGff fuel isGtf h2 := by
  unfold emitGff
  rw [hc1, hc2, hcd]
  exact flatMap_congr l _ _ fun c hcm => by rw [hb c hcm]

theorem firstContig_defaultType (f : Feature) :
    firstContig (defaultTypeGene f) = firstContig f := rfl

theorem firstContig_setType (t : String) (f : Feature) :
    firstContig (setTypeTo t f) = firstContig f := rfl

theorem pg_setType (t : String) (f : Feature) :
    (setTypeTo t f).parent_gene = f.parent_gene := rfl

theorem pm_setType (t : String) (f : Feature) :
    (setTypeTo t f).parent_mrna = f.parent_mrna := rfl

/-- Claim C10: with `contig_ids` present, GFF emission writes one
`##sequence-region` header per listed contig, in order (even for contigs
without features), and a top-level feature whose first location's contig is
not listed contributes nothing: removing it leaves the emitted lines
unchanged. -/
theorem c10_contig_scope (g : Genome) (l : List String) (fuel : Nat) (isGtf : Bool)
    (hc : g.contig_ids = some l) :
    outHeaders (build_gff_file fuel isGtf g).1 = l ∧
    (∀ g' f, RemovesTop g g' f → firstContig f ∉ l →
      (build_gff_file fuel isGtf g').1 = (build_gff_file fuel isGtf g).1) := by
  have hcoG : contigOrder (mutateForGff g) = l := by
    unfold contigOrder mutateForGff
    dsimp only
    rw [hc]
  constructor
  · unfold build_gff_file
    dsimp only
    rw [outHeaders_emit, hcoG]
  · intro g' f hrem hnotin
    cases hrem with
    | features pre post hpre hg' =>
      subst hg'
      unfold build_gff_file
      dsimp only
      apply emitGff_congr fuel isGtf _ _ l
      · unfold contigOrder mutateForGff
        dsimp only
        rw [hc]
      · exact hcoG
      · rfl
      · intro c hcm
        have hne : ¬(firstContig f = c) := fun hh => hnotin (hh ▸ hcm)
        unfold bucketOf mutateForGff
        dsimp only
        rw [hpre]
        simp [List.map_append, List.filter_append, List.filter_cons,
          firstContig_defaultType, hne]
    | nonCoding pre post hpre hg' =>
      subst hg'
      unfold build_gff_file
      dsimp only
      apply emitGff_congr fuel isGtf _ _ l
      · unfold contigOrder mutateForGff
        dsimp only
        rw [hc]
      · exact hcoG
      · rfl
      · intro c hcm
        have hne : ¬(firstContig f = c) := fun hh => hnotin (hh ▸ hcm)
        unfold bucketOf mutateForGff
        dsimp only
        rw [hpre]
        simp [List.map_append, List.filter_append, List.filter_cons,
          firstContig_defaultType, hne]
    | mrnas pre post htop hpre hg' =>
      subst hg'
      unfold build_gff_file
      dsimp only
      apply emitGff_congr fuel isGtf _ _ l
      · unfold contigOrder mutateForGff
        dsimp only
        rw [hc]
      · exact hcoG
      · unfold childDictOf mutateForGff
        dsimp only
        rw [hpre]
        simp [List.map_append, List.filter_append, List.filter_cons, pg_setType, htop]
      · intro c hcm
        have hne : ¬(firstContig f = c) := fun hh => hnotin (hh ▸ hcm)
        unfold bucketOf mutateForGff
        dsimp only
        rw [hpre]
        simp [List.map_append, List.filter_append, List.filter_cons,
          firstContig_setType, pg_setType, htop, hne]
    | cdss pre post htopg htopm hpre hg' =>
      subst hg'
      unfold build_gff_file
      dsimp only
      apply emitGff_congr fuel isGtf _ _ l
      · unfold contigOrder mutateForGff
        dsimp only
        rw [hc]
      · exact hcoG
      · unfold childDictOf mutateForGff
        dsimp only
        rw [hpre]
        simp [List.map_append, List.filter_append, List.filter_cons, pg_setType,
          pm_setType, htopg, htopm]
      · intro c hcm
        have hne : ¬(firstContig f = c) := fun hh => hnotin (hh ▸ hcm)
        unfold bucketOf mutateForGff
        dsimp only
        rw [hpre]
        simp [List.map_append, List.filter_append, List.filter_cons,
          firstContig_setType, pg_setType, pm_setType, htopg, htopm, hne]

/-- Witness for `c10_contig_scope`: the two-contig genome's output carries
headers `["c1", "c2"]` in order (contig `c2` has no features). -/
theorem c10_contig_scope_witness :
    outHeaders (build_gff_file 1 false cxGenomeGff).1 = ["c1", "c2"] :=
  (c10_contig_scope cxGenomeGff ["c1", "c2"] 1 false rfl).1

/-! ## Claim C9: emission is not read-only -/

/-- Claim C9 counterexample: formatting a one-segment gene for GenBank leaves
the in-memory feature with an empty location list (`.pop(0)` consumes it), so
emission does change feature fields beyond a transient parent alias. -/
theorem c9_counterexample :
    (format_feature "c1" cxGffGene).2.location = [] ∧ cxGffGene.location ≠ [] ∧
      (format_feature "c1" cxGffGene).2 ≠ cxGffGene := by
  refine ⟨by decide, by decide, by decide⟩

theorem mutateForGff_idem (g : Genome) : mutateForGff (mutateForGff g) = mutateForGff g := by
  have h1 : defaultTypeGene ∘ defaultTypeGene = defaultTypeGene := funext fun f => rfl
  have h2 : setTypeTo "mRNA" ∘ setTypeTo "mRNA" = setTypeTo "mRNA" := funext fun f => rfl
  have h3 : setTypeTo "CDS" ∘ setTypeTo "CDS" = setTypeTo "CDS" := funext fun f => rfl
  unfold mutateForGff
  dsimp only
  rw [List.map_map, List.map_map, List.map_map, List.map_map, h1, h2, h3]

/-- Claim C9 amended: emission does mutate the migrated genome.  The GenBank
feature formatter consumes the formatted feature's location list entirely
(leaving it empty), and the GFF/GTF builder persists feature types (absent
types default to `gene`, mrnas/cdss entries are forced to `mRNA`/`CDS`);
those type mutations are idempotent, so running the GFF/GTF builder a second
time on the genome it mutated yields the identical lines and genome, whereas
re-running the GenBank formatter on its own output would find no locations
left. -/
theorem c9_amended :
    (∀ (c : String) (f : Feature), f.location ≠ [] →
      (format_feature c f).2 = { f with location := [] }) ∧
    (∀ (fuel : Nat) (isGtf : Bool) (g : Genome),
      build_gff_file fuel isGtf (build_gff_file fuel isGtf g).2 =
        build_gff_file fuel isGtf g) := by
  constructor
  · intro c f _
    rfl
  · intro fuel isGtf g
    unfold build_gff_file
    dsimp only
    rw [mutateForGff_idem]

/-- Witness for `c9_amended` at a concrete gene and genome. -/
theorem c9_amended_witness :
    (format_feature "c1" cxGffGene).2 = { cxGffGene with location := [] } ∧
      build_gff_file 1 false (build_gff_file 1 false cxGenomeGff).2 =
        build_gff_file 1 false cxGenomeGff :=
  ⟨c9_amended.1 "c1" cxGffGene (by decide), c9_amended.2 1 false cxGenomeGff⟩

/-! ## Claim C1: idempotence of the migrator -/

theorem internTermList_interned (ont : String) :
    ∀ (ts : List (String × TermVal)) (st : OntSt),
      ∀ e ∈ (internTermList ont st ts).1, ∃ idxs, e.2 = TermVal.interned idxs := by
  intro ts
  induction ts with
  | nil => intro st e he; cases he
  | cons t ts ih =>
    intro st e he
    unfold internTermList at he
    rcases List.mem_cons.mp he with hh | hh
    · subst hh
      unfold internTerm
      rcases t with ⟨k, tv⟩
      cases tv with
      | interned l => exact ⟨l, rfl⟩
      | raw tr => exact ⟨_, rfl⟩
    · exact ih _ e hh

theorem internOnts_interned :
    ∀ (ts : List (String × List (String × TermVal))) (st : OntSt),
      ∀ p ∈ (internOnts st ts).1, ∀ e ∈ p.2, ∃ idxs, e.2 = TermVal.interned idxs := by
  intro ts
  induction ts with
  | nil => intro st p hp; cases hp
  | cons o ts ih =>
    intro st p hp e he
    unfold internOnts at hp
    rcases List.mem_cons.mp hp with hh | hh
    · subst hh
      exact internTermList_interned o.1 o.2 st e he
    · exact ih _ p hh e he

theorem internTermList_fixed (ont : String) :
    ∀ (ts : List (String × TermVal)) (st : OntSt),
      (∀ e ∈ ts, ∃ idxs, e.2 = TermVal.interned idxs) →
      internTermList ont st ts = (ts, st) := by
  intro ts
  induction ts with
  | nil => intro st _; rfl
  | cons t ts ih =>
    intro st h
    obtain ⟨idxs, hidx⟩ := h t (List.mem_cons_self _ _)
    rcases t with ⟨k, tv⟩
    simp only at hidx
    subst hidx
    unfold internTermList internTerm
    dsimp only
    rw [ih st fun e he => h e (List.mem_cons_of_mem _ he)]

theorem internOnts_fixed :
    ∀ (ts : List (String × List (String × TermVal))) (st : OntSt),
      (∀ p ∈ ts, ∀ e ∈ p.2, ∃ idxs, e.2 = TermVal.interned idxs) →
      internOnts st ts = (ts, st) := by
  intro ts
  induction ts with
  | nil => intro st _; rfl
  | cons o ts ih =>
    intro st h
    unfold internOnts
    rw [internTermList_fixed o.1 o.2 st (h o (List.mem_cons_self _ _))]
    dsimp only
    rw [ih st fun p hp => h p (List.mem_cons_of_mem _ hp)]

theorem normFeat_normal (m : String → String) (st : OntSt) (f : Feature) :
    NormalFeat (normFeat m st f).1 := by
  unfold normFeat
  dsimp only
  constructor
  · repeat' split
    all_goals simp_all
  constructor
  · repeat' split
    all_goals simp_all [AVal.isStr]
  constructor
  · intro p hp e he
    repeat' split at hp
    all_goals
      simp only at hp
      exact internOnts_interned _ _ p hp e he
  constructor
  · repeat' split
    all_goals rfl
  constructor
  · repeat' split
    all_goals simp_all
  · cases hpt : f.protein_translation with
    | none =>
      repeat' split
      all_goals simp_all
    | some tr =>
      repeat' split
      all_goals simp_all

theorem normFeat_fixed (m : String → String) (st : OntSt) (f : Feature)
    (h : NormalFeat f) : normFeat m st f = (f, st) := by
  obtain ⟨h1, h2, h3, h4, h5, h6⟩ := h
  cases f with
  | mk fid ty loc fn fns fds al dbx ot dna dnal pt pmd5 pg pm par cdssF mrnasF cdsF ch fl
      inf noteF warn dep =>
    dsimp only at h1 h2 h3 h4 h5 h6 ⊢
    subst h1
    subst h4
    unfold normFeat
    dsimp only
    rcases h2 with hh2 | ⟨a, tl, hh2, hno⟩
    all_goals subst hh2
    all_goals dsimp only
    all_goals try rw [hno, if_neg Bool.false_ne_true]
    all_goals rw [internOnts_fixed ot st h3]
    all_goals dsimp only
    all_goals
      cases hdl : dnal with
      | none => exact absurd hdl h5
      | some v =>
        subst hdl
        dsimp only
        rcases h6 with h6 | h6
        · subst h6
          rfl
        · cases hpt : pt with
          | none =>
            subst hpt
            rfl
          | some tr =>
            subst hpt
            cases hm5 : pmd5 with
            | none => exact absurd hm5 h6
            | some m5 =>
              subst hm5
              rfl

theorem normCount_fst (m : String → String) (st : OntSt) (c : List (String × Nat))
    (f : Feature) : (normCount m st c f).1 = (normFeat m st f).1 := rfl

theorem normCount_fixed (m : String → String) (st : OntSt) (c : List (String × Nat))
    (f : Feature) (h : NormalFeat f) :
    (normCount m st c f).1 = f ∧ (normCount m st c f).2.1 = st := by
  unfold normCount
  rw [normFeat_fixed m st f h]
  exact ⟨rfl, rfl⟩

theorem normList_fixed (m : String → String) :
    ∀ (fs : List Feature) (st : OntSt) (c : List (String × Nat)),
      (∀ f ∈ fs, NormalFeat f) →
      (normList m st c fs).1 = fs ∧ (normList m st c fs).2.1 = st := by
  intro fs
  induction fs with
  | nil => intro st c _; exact ⟨rfl, rfl⟩
  | cons f fs ih =>
    intro st c h
    have hf := normCount_fixed m st c f (h f (List.mem_cons_self _ _))
    unfold normList
    dsimp only
    rw [hf.1, hf.2]
    have hrest := ih st (normCount m st c f).2.2 fun f' hf' => h f' (List.mem_cons_of_mem _ hf')
    rw [hrest.1, hrest.2]
    exact ⟨rfl, rfl⟩

theorem normList_normal (m : String → String) :
    ∀ (fs : List Feature) (st : OntSt) (c : List (String × Nat)),
      ∀ f' ∈ (normList m st c fs).1, NormalFeat f' := by
  intro fs
  induction fs with
  | nil => intro st c f' hf'; cases hf'
  | cons f fs ih =>
    intro st c f' hf'
    unfold normList at hf'
    rcases List.mem_cons.mp hf' with hh | hh
    · subst hh
      rw [normCount_fst]
      exact normFeat_normal m st f
    · exact ih _ _ f' hh

theorem normal_parentDefault (f : Feature) (h : NormalFeat f) :
    NormalFeat { f with parent_gene := some "" } := h

theorem featPass_retained_good (m : String → String) :
    ∀ (fs : List Feature) (st : OntSt) (c : List (String × Nat)),
      ∀ f' ∈ (featPass m st c fs).retained, GoodGene f' := by
  intro fs
  induction fs with
  | nil => intro st c f' hf'; cases hf'
  | cons f fs ih =>
    intro st c f' hf'
    unfold featPass at hf'
    dsimp only at hf'
    split at hf'
    · split at hf'
      · exact ih _ _ f' hf'
      · rcases List.mem_cons.mp hf' with hh | hh
        · subst hh
          refine ⟨?_, ?_, ?_⟩
          · rw [normCount_fst]
            exact normFeat_normal m st f
          · assumption
          · rename_i hty hne
            intro hnil
            rw [hnil] at hne
            simp at hne
        · exact ih _ _ f' hh
    · split at hf'
      · exact ih _ _ f' hf'
      · split at hf'
        · exact ih _ _ f' hf'
        · exact ih _ _ f' hf'

theorem featPass_cdsNew_normal (m : String → String) :
    ∀ (fs : List Feature) (st : OntSt) (c : List (String × Nat)),
      ∀ f' ∈ (featPass m st c fs).cdsNew, NormalFeat f' := by
  intro fs
  induction fs with
  | nil => intro st c f' hf'; cases hf'
  | cons f fs ih =>
    intro st c f' hf'
    unfold featPass at hf'
    dsimp only at hf'
    split at hf'
    · split at hf'
      · exact ih _ _ f' hf'
      · exact ih _ _ f' hf'
    · split at hf'
      · rcases List.mem_cons.mp hf' with hh | hh
        · subst hh
          split
          · exact normal_parentDefault _ (by rw [normCount_fst]; exact normFeat_normal m st f)
          · rw [normCount_fst]
            exact normFeat_normal m st f
        · exact ih _ _ f' hh
      · split at hf'
        · exact ih _ _ f' hf'
        · exact ih _ _ f' hf'

theorem featPass_mrnaNew_normal (m : String → String) :
    ∀ (fs : List Feature) (st : OntSt) (c : List (String × Nat)),
      ∀ f' ∈ (featPass m st c fs).mrnaNew, NormalFeat f' := by
  intro fs
  induction fs with
  | nil => intro st c f' hf'; cases hf'
  | cons f fs ih =>
    intro st c f' hf'
    unfold featPass at hf'
    dsimp only at hf'
    split at hf'
    · split at hf'
      · exact ih _ _ f' hf'
      · exact ih _ _ f' hf'
    · split at hf'
      · exact ih _ _ f' hf'
      · split at hf'
        · rcases List.mem_cons.mp hf' with hh | hh
          · subst hh
            split
            · exact normal_parentDefault _ (by rw [normCount_fst]; exact normFeat_normal m st f)
            · rw [normCount_fst]
              exact normFeat_normal m st f
          · exact ih _ _ f' hh
        · exact ih _ _ f' hf'

theorem featPass_fixed (m : String → String) :
    ∀ (fs : List Feature) (st : OntSt) (c : List (String × Nat)),
      (∀ f ∈ fs, GoodGene f) →
      (featPass m st c fs).retained = fs ∧ (featPass m st c fs).ncNew = [] ∧
      (featPass m st c fs).cdsNew = [] ∧ (featPass m st c fs).mrnaNew = [] ∧
      (featPass m st c fs).st = st := by
  intro fs
  induction fs with
  | nil => intro st c _; exact ⟨rfl, rfl, rfl, rfl, rfl⟩
  | cons f fs ih =>
    intro st c h
    obtain ⟨hn, hty, hcds⟩ := h f (List.mem_cons_self _ _)
    have hfix := normCount_fixed m st c f hn
    unfold featPass
    dsimp only
    rw [hfix.1, hfix.2]
    rw [if_pos hty]
    rw [if_neg (by
      intro hemp
      exact hcds (List.isEmpty_iff.mp hemp))]
    have hrest := ih st (normCount m st c f).2.2 fun f' hf' => h f' (List.mem_cons_of_mem _ hf')
    dsimp only
    rw [hrest.1, hrest.2.1, hrest.2.2.1, hrest.2.2.2.1, hrest.2.2.2.2]
    exact ⟨rfl, rfl, rfl, rfl, rfl⟩

theorem featurePhase_post (m : String → String) (h : Genome) :
    FeatDone (featurePhase m h) := by
  unfold featurePhase FeatDone
  dsimp only
  refine ⟨?_, ?_, ?_⟩
  · intro f hf
    rcases List.mem_append.mp hf with hh | hh
    · exact normList_normal m h.mrnas _ _ f hh
    · exact featPass_mrnaNew_normal m h.features _ _ f hh
  · intro f hf
    rcases List.mem_append.mp hf with hh | hh
    · exact normList_normal m h.cdss _ _ f hh
    · exact featPass_cdsNew_normal m h.features _ _ f hh
  · intro f hf
    exact featPass_retained_good m h.features _ _ f hf

theorem featurePhase_id (m : String → String) (h : Genome) (hd : FeatDone h) :
    ∃ c', featurePhase m h = { h with feature_counts := c' } := by
  obtain ⟨hm, hc, hf⟩ := hd
  cases h with
  | mk srcG sci scin dom tax gc gt mol ta ds m5 gcc ncont gty ar cr ci feats cdssG mrnasG
      ncf fc op oe warn =>
    dsimp only at hm hc hf
    unfold featurePhase
    dsimp only
    have r1 := normList_fixed m mrnasG ⟨op, oe⟩ [] hm
    rw [r1.1, r1.2]
    have r2 := normList_fixed m cdssG ⟨op, oe⟩ (normList m ⟨op, oe⟩ [] mrnasG).2.2 hc
    rw [r2.1, r2.2]
    have r3 := featPass_fixed m feats ⟨op, oe⟩
      (normList m ⟨op, oe⟩ ((normList m ⟨op, oe⟩ [] mrnasG).2.2) cdssG).2.2 hf
    rw [r3.1, r3.2.1, r3.2.2.1, r3.2.2.2.1, r3.2.2.2.2]
    rw [List.append_nil, List.append_nil, List.append_nil]
    exact ⟨_, rfl⟩

theorem stepTiers_post (g : Genome) : TiersDone (stepTiers g) := by
  unfold TiersDone stepTiers
  cases hx : g.genome_tiers <;> simp [hx]

theorem stepTiers_id (h : Genome) (hd : TiersDone h) : stepTiers h = h := by
  unfold stepTiers
  cases hx : h.genome_tiers with
  | none => exact absurd hx hd
  | some t => rfl

theorem stepMolecule_post (g : Genome) : MolDone (stepMolecule g) := by
  unfold MolDone stepMolecule
  cases hx : g.molecule_type <;> simp [hx]

theorem stepMolecule_id (h : Genome) (hd : MolDone h) : stepMolecule h = h := by
  unfold stepMolecule
  cases hx : h.molecule_type with
  | none => exact absurd hx hd
  | some t => rfl

theorem ncbiId_congr (h h' : Genome)
    (hta : h'.taxon_assignments = h.taxon_assignments) : ncbiId h' = ncbiId h := by
  unfold ncbiId
  rw [hta]

theorem ncbiId_ne_zero (g : Genome) (t : Nat) (hn : ncbiId g = some t) : t ≠ 0 := by
  unfold ncbiId at hn
  repeat' split at hn
  all_goals simp_all

theorem set_default_post (g : Genome) :
    (set_default_taxon_data g).taxonomy ≠ none ∧
      (set_default_taxon_data g).genetic_code ≠ none ∧
      (set_default_taxon_data g).domain ≠ none ∧
      (set_default_taxon_data g).taxon_assignments = g.taxon_assignments := by
  unfold set_default_taxon_data
  dsimp only
  repeat' split
  all_goals simp_all

theorem set_default_id (h : Genome) (ht : h.taxonomy ≠ none) (hg : h.genetic_code ≠ none)
    (hd : h.domain ≠ none) : set_default_taxon_data h = h := by
  unfold set_default_taxon_data
  cases hx : h.taxonomy with
  | none => exact absurd hx ht
  | some t =>
    dsimp only
    cases hy : h.genetic_code with
    | none => exact absurd hy hg
    | some c =>
      dsimp only
      cases hz : h.domain with
      | none => exact absurd hz hd
      | some d => rfl

theorem set_taxon_post (fT : Nat → TaxonData) (tid : Nat) (g : Genome) :
    TaxFetched fT tid (set_taxon_data fT tid g) := by
  unfold TaxFetched set_taxon_data addWarning
  dsimp only
  cases hd : domainsOf (fT tid) with
  | nil =>
    dsimp only
    repeat' split
    all_goals simp_all [truthyO]
  | cons d rest =>
    dsimp only
    repeat' split
    all_goals simp_all [truthyO]

theorem set_taxon_id (fT : Nat → TaxonData) (tid : Nat) (h : Genome)
    (hf : TaxFetched fT tid h) :
    ∃ W, set_taxon_data fT tid h = { h with warnings := W } := by
  obtain ⟨h1, h2, h3, h4, h5⟩ := hf
  cases h with
  | mk srcG sci scin dom tax gc gt mol ta ds m5 gcc ncont gty ar cr ci feats cdssG mrnasG
      ncf fc op oe warn =>
    dsimp only at h1 h2 h3 h4 h5
    subst h1
    subst h2
    subst h3
    subst h4
    unfold set_taxon_data addWarning
    dsimp only
    repeat' split
    all_goals simp_all

theorem stepTaxon_post (fT : Nat → TaxonData) (g : Genome) : TaxDone fT (stepTaxon fT g) := by
  unfold stepTaxon
  cases hn : ncbiId g with
  | none =>
    obtain ⟨ht, hg, hd, hta⟩ := set_default_post g
    exact Or.inl ⟨(ncbiId_congr g (set_default_taxon_data g) hta).trans hn, ht, hg, hd⟩
  | some tid =>
    refine Or.inr ⟨tid, ?_, set_taxon_post fT tid g⟩
    have h1 := (set_taxon_post fT tid g).1
    have h2 := ncbiId_ne_zero g tid hn
    unfold ncbiId
    rw [h1]
    simp [lookupA, h2]

theorem stepTaxon_id (fT : Nat → TaxonData) (h : Genome) (hd : TaxDone fT h) :
    ∃ W, stepTaxon fT h = { h with warnings := W } := by
  unfold stepTaxon
  rcases hd with ⟨hn, ht, hg, hdm⟩ | ⟨tid, hn, hf⟩
  · rw [hn, set_default_id h ht hg hdm]
    exact ⟨h.warnings, rfl⟩
  · rw [hn]
    exact set_taxon_id fT tid h hf

theorem stepAssembly_post (fA : String → AssemblyData) (fC : String → ContigsetData)
    (g : Genome) : StatsStable (stepAssembly fA fC g) := by
  unfold StatsStable stepAssembly
  cases hm : statsMissing g with
  | false => simp only [hm]; exact Or.inl hm
  | true =>
    simp only [hm]
    cases ha : g.assembly_ref with
    | some r =>
      dsimp only
      left
      unfold statsMissing
      by_cases ht : truthyO (fA r).atype = true
      · simp [ht]
      · simp [ht]
    | none =>
      dsimp only
      cases hc : g.contigset_ref with
      | some r =>
        left
        unfold statsMissing
        simp
      | none => exact Or.inr ⟨ha, hc⟩

theorem stepAssembly_id (fA : String → AssemblyData) (fC : String → ContigsetData)
    (h : Genome) (hs : StatsStable h) : stepAssembly fA fC h = h := by
  unfold stepAssembly
  rcases hs with hm | ⟨ha, hc⟩
  · simp [hm]
  · cases hm : statsMissing h with
    | false => simp [hm]
    | true => simp [hm, ha, hc]

theorem tiersDone_congr (h h' : Genome) (he : h'.genome_tiers = h.genome_tiers)
    (hd : TiersDone h) : TiersDone h' := by
  unfold TiersDone at *
  rw [he]
  exact hd

theorem molDone_congr (h h' : Genome) (he : h'.molecule_type = h.molecule_type)
    (hd : MolDone h) : MolDone h' := by
  unfold MolDone at *
  rw [he]
  exact hd

theorem statsStable_congr (h h' : Genome) (h1 : statsMissing h' = statsMissing h)
    (h2 : h'.assembly_ref = h.assembly_ref) (h3 : h'.contigset_ref = h.contigset_ref)
    (hs : StatsStable h) : StatsStable h' := by
  unfold StatsStable at *
  rw [h1, h2, h3]
  exact hs

theorem featDone_congr (h h' : Genome) (h1 : h'.mrnas = h.mrnas) (h2 : h'.cdss = h.cdss)
    (h3 : h'.features = h.features) (hd : FeatDone h) : FeatDone h' := by
  unfold FeatDone at *
  rw [h1, h2, h3]
  exact hd

theorem taxDone_congr (fT : Nat → TaxonData) (h h' : Genome)
    (h1 : h'.taxon_assignments = h.taxon_assignments)
    (h2 : h'.genetic_code = h.genetic_code)
    (h3 : h'.taxonomy = h.taxonomy)
    (h4 : h'.domain = h.domain)
    (h5 : h'.scientific_name = h.scientific_name)
    (hd : TaxDone fT h) : TaxDone fT h' := by
  have hn : ncbiId h' = ncbiId h := ncbiId_congr h h' h1
  rcases hd with ⟨a, b, c, d⟩ | ⟨tid, a, b⟩
  · exact Or.inl ⟨hn.trans a, by rw [h3]; exact b, by rw [h2]; exact c, by rw [h4]; exact d⟩
  · refine Or.inr ⟨tid, hn.trans a, ?_⟩
    obtain ⟨b1, b2, b3, b4, b5⟩ := b
    refine ⟨h1.trans b1, h2.trans b2, h3.trans b3, h5.trans b4, ?_⟩
    cases hdm : domainsOf (fT tid) with
    | nil =>
      rw [hdm] at b5
      rw [h4]
      exact b5
    | cons d' rest =>
      rw [hdm] at b5
      rw [h4]
      exact b5

theorem stepMolecule_pres (g : Genome) : (stepMolecule g).genome_tiers = g.genome_tiers := by
  unfold stepMolecule
  cases g.molecule_type <;> rfl

theorem set_default_pres (g : Genome) :
    (set_default_taxon_data g).genome_tiers = g.genome_tiers ∧
      (set_default_taxon_data g).molecule_type = g.molecule_type := by
  unfold set_default_taxon_data
  dsimp only
  repeat' split
  all_goals exact ⟨rfl, rfl⟩

theorem set_taxon_pres (fT : Nat → TaxonData) (tid : Nat) (g : Genome) :
    (set_taxon_data fT tid g).genome_tiers = g.genome_tiers ∧
      (set_taxon_data fT tid g).molecule_type = g.molecule_type := by
  unfold set_taxon_data addWarning
  dsimp only
  repeat' split
  all_goals exact ⟨rfl, rfl⟩

theorem stepTaxon_pres (fT : Nat → TaxonData) (g : Genome) :
    (stepTaxon fT g).genome_tiers = g.genome_tiers ∧
      (stepTaxon fT g).molecule_type = g.molecule_type := by
  unfold stepTaxon
  cases ncbiId g with
  | none => exact set_default_pres g
  | some tid => exact set_taxon_pres fT tid g

theorem stepAssembly_pres (fA : String → AssemblyData) (fC : String → ContigsetData)
    (g : Genome) :
    (stepAssembly fA fC g).genome_tiers = g.genome_tiers ∧
      (stepAssembly fA fC g).molecule_type = g.molecule_type ∧
      (stepAssembly fA fC g).taxon_assignments = g.taxon_assignments ∧
      (stepAssembly fA fC g).genetic_code = g.genetic_code ∧
      (stepAssembly fA fC g).taxonomy = g.taxonomy ∧
      (stepAssembly fA fC g).domain = g.domain ∧
      (stepAssembly fA fC g).scientific_name = g.scientific_name := by
  unfold stepAssembly
  dsimp only
  repeat' split
  all_goals exact ⟨rfl, rfl, rfl, rfl, rfl, rfl, rfl⟩

/-- C1 counterexample: running the migrator twice on a genome holding one
non-coding gene does not reproduce the first run's output — the rebuilt
`feature_counts` of the second run differs (the `gene` tally disappears once
the gene has been rebucketed into `non_coding_features`), so
`migrate(migrate(g)) = migrate(g)` fails even up to warning-list ordering. -/
theorem c1_counterexample :
    (update_genome cxMd5 cxFA cxFC cxFT
        (update_genome cxMd5 cxFA cxFC cxFT cxGenomeC1)).feature_counts ≠
      (update_genome cxMd5 cxFA cxFC cxFT cxGenomeC1).feature_counts := by decide

/-- C1 (amended): the migrator is idempotent only up to its volatile outputs —
after erasing the re-derived `feature_counts` and the append-only `warnings`
list, a second run of `_update_genome` returns the first run's genome
unchanged.  The hypothesis `ontKeysOk g` restricts inputs to those on which
the Python feature loop is defined at all (raw ontology terms stored under
their own id; otherwise CPython raises for mutating a dict under iteration). -/
theorem c1_amended (md5hex : String → String) (fA : String → AssemblyData)
    (fC : String → ContigsetData) (fT : Nat → TaxonData) (g : Genome)
    (_hok : ontKeysOk g = true) :
    eraseVolatile (update_genome md5hex fA fC fT (update_genome md5hex fA fC fT g)) =
      eraseVolatile (update_genome md5hex fA fC fT g) := by
  have hT : TiersDone (update_genome md5hex fA fC fT g) := by
    unfold update_genome
    exact tiersDone_congr _ _ rfl
      (tiersDone_congr _ _ (stepAssembly_pres fA fC _).1
        (tiersDone_congr _ _ (stepTaxon_pres fT _).1
          (tiersDone_congr _ _ (stepMolecule_pres _) (stepTiers_post g))))
  have hM : MolDone (update_genome md5hex fA fC fT g) := by
    unfold update_genome
    exact molDone_congr _ _ rfl
      (molDone_congr _ _ (stepAssembly_pres fA fC _).2.1
        (molDone_congr _ _ (stepTaxon_pres fT _).2 (stepMolecule_post _)))
  have hX : TaxDone fT (update_genome md5hex fA fC fT g) := by
    unfold update_genome
    have p := stepAssembly_pres fA fC (stepTaxon fT (stepMolecule (stepTiers g)))
    exact taxDone_congr fT _ _ rfl rfl rfl rfl rfl
      (taxDone_congr fT _ _ p.2.2.1 p.2.2.2.1 p.2.2.2.2.1 p.2.2.2.2.2.1 p.2.2.2.2.2.2
        (stepTaxon_post fT _))
  have hS : StatsStable (update_genome md5hex fA fC fT g) := by
    unfold update_genome
    exact statsStable_congr _ _ rfl rfl rfl (stepAssembly_post fA fC _)
  have hF : FeatDone (update_genome md5hex fA fC fT g) :=
    featurePhase_post md5hex _
  have e1 : stepTiers (update_genome md5hex fA fC fT g) = update_genome md5hex fA fC fT g :=
    stepTiers_id _ hT
  have e2 : stepMolecule (update_genome md5hex fA fC fT g) = update_genome md5hex fA fC fT g :=
    stepMolecule_id _ hM
  obtain ⟨W, e3⟩ := stepTaxon_id fT _ hX
  have hS2 : StatsStable { update_genome md5hex fA fC fT g with warnings := W } :=
    statsStable_congr _ _ rfl rfl rfl hS
  have e4 := stepAssembly_id fA fC _ hS2
  have hF2 : FeatDone { update_genome md5hex fA fC fT g with warnings := W } :=
    featDone_congr _ _ rfl rfl rfl hF
  obtain ⟨c2, e5⟩ := featurePhase_id md5hex _ hF2
  show eraseVolatile (featurePhase md5hex (stepAssembly fA fC (stepTaxon fT (stepMolecule
      (stepTiers (update_genome md5hex fA fC fT g)))))) = _
  rw [e1, e2, e3, e4, e5]
  rfl

/-- Witness for C1 (amended): the concrete genome of the counterexample
satisfies the ontology-key hypothesis, and the amended idempotence law holds
on it. -/
theorem c1_amended_witness :
    ontKeysOk cxGenomeC1 = true ∧
      eraseVolatile (update_genome cxMd5 cxFA cxFC cxFT
          (update_genome cxMd5 cxFA cxFC cxFT cxGenomeC1)) =
        eraseVolatile (update_genome cxMd5 cxFA cxFC cxFT cxGenomeC1) :=
  ⟨by decide, c1_amended cxMd5 cxFA cxFC cxFT cxGenomeC1 (by decide)⟩
